import Mathlib

/-!
Shallow embedding of the e1000 NIC behavioral emulator (vmuxIO/e1000-emu).

Bytes are modelled as natural numbers (u8 values, reduced mod 256 where the
Rust types force it); machine integers are naturals with explicit mod 2^w at
the points where the source truncates.  Guest memory is a byte-addressed
function Nat -> Nat.  Fallible Rust code (anyhow::Result) becomes Except;
Rust panics (unwrap, assert, todo) are also modelled as Except errors, kept
distinct from recoverable errors where the distinction matters (the TX drain
catches recoverable errors but aborts on panics).
-/

namespace E1000

/-- Byte lookup in a byte list, default 0 for out-of-range indices. -/
def getB (l : List Nat) (i : Nat) : Nat := l.getD i 0

/-- Byte store in a byte list (List.set: out-of-range stores are dropped;
the Rust source would panic there, theorems carry in-range hypotheses). -/
def setB (l : List Nat) (i v : Nat) : List Nat := l.set i v

/-- Big-endian read of a u16 from two bytes, as in u16::from_be_bytes. -/
def read_be16 (l : List Nat) (off : Nat) : Nat :=
  (getB l off % 256) * 256 + getB l (off + 1) % 256

/-- Big-endian read of a u32 from four bytes, as in u32::from_be_bytes. -/
def read_be32 (l : List Nat) (off : Nat) : Nat :=
  ((getB l off % 256) * 16777216) + ((getB l (off + 1) % 256) * 65536) +
    ((getB l (off + 2) % 256) * 256) + getB l (off + 3) % 256

/-- Big-endian store of a u16 (value taken mod 2^16) into two bytes, as in
copy_from_slice(&v.to_be_bytes()). -/
def write_be16 (l : List Nat) (off v : Nat) : List Nat :=
  setB (setB l off (v / 256 % 256)) (off + 1) (v % 256)

/-- Big-endian store of a u32 (value taken mod 2^32) into four bytes. -/
def write_be32 (l : List Nat) (off v : Nat) : List Nat :=
  setB (setB (setB (setB l off (v / 16777216 % 256)) (off + 1) (v / 65536 % 256))
    (off + 2) (v / 256 % 256)) (off + 3) (v % 256)

/-- Embeds util::wrapping_add_to_u16_be_bytes applied to the two bytes at
offset off: read the big-endian u16, wrapping-add k, store it back. -/
def wrapping_add_to_u16_be_bytes (l : List Nat) (off k : Nat) : List Nat :=
  write_be16 l off ((read_be16 l off + k) % 65536)

/-- Embeds util::wrapping_add_to_u32_be_bytes applied to the four bytes at
offset off. -/
def wrapping_add_to_u32_be_bytes (l : List Nat) (off k : Nat) : List Nat :=
  write_be32 l off ((read_be32 l off + k) % 4294967296)

/-- Folds the carries of a ones-complement 16-bit accumulator (RFC 1071). -/
def ocFold (s : Nat) : Nat :=
  if h : s < 65536 then s else ocFold (s % 65536 + s / 65536)
termination_by s
decreasing_by
  have h1 : 65536 ≤ s := Nat.le_of_not_lt h
  have h2 : 1 ≤ s / 65536 := (Nat.one_le_div_iff (by omega)).mpr h1
  have h3 := Nat.mod_add_div s 65536
  omega

/-- Groups a byte sequence into 16-bit big-endian words, padding a trailing
odd byte with a zero low byte (RFC 1071 convention, as the
internet_checksum crate does). -/
def wordsOfBytesBE : List Nat → List Nat
  | [] => []
  | [a] => [(a % 256) * 256]
  | a :: b :: rest => ((a % 256) * 256 + b % 256) :: wordsOfBytesBE rest

/-- Ones-complement Internet checksum (RFC 1071) of a byte sequence, as
computed by internet_checksum::Checksum: the complement of the folded
ones-complement sum, as a 16-bit value. -/
def internetChecksum (l : List Nat) : Nat := 65535 - ocFold (wordsOfBytesBE l).sum

/-- Incremental Internet-checksum update (RFC 1624 eqn 3), embedding
internet_checksum::update(prev, old, new): the stored checksum bytes prev
are updated for the replacement of bytes old by bytes new. -/
def checksumUpdate (prev : Nat) (old new : List Nat) : Nat :=
  65535 - ocFold ((65535 - ocFold prev) +
    ((wordsOfBytesBE old).map (fun w => 65535 - w)).sum + (wordsOfBytesBE new).sum)

/-- Embeds transmit::write_internet_checksum: checksum the byte range
from start to inclusive_end (to the end of the data when inclusive_end
is zero) and store the folded complement big-endian at offset.  The range
may include the stored checksum itself (partial pre-computed checksums). -/
def write_internet_checksum (data : List Nat) (offset start inclusive_end : Nat) :
    List Nat :=
  let range := if inclusive_end ≠ 0
    then (data.take (inclusive_end + 1)).drop start
    else data.drop start
  write_be16 data offset (internetChecksum range)

/-- TCP/IP context transmit descriptor
(e1000/descriptors.rs::TransmitDescriptorTcpContext).  The field set is the
one transmit.rs reads: the packed declaration in src lags behind transmit.rs
and misses tucmd_ip and tucmd_tcp, which the spec lists as tucmd.{TCP, IP}. -/
structure TransmitDescriptorTcpContext where
  ip_css : Nat
  ip_cso : Nat
  ip_cse : Nat
  tu_css : Nat
  tu_cso : Nat
  tu_cse : Nat
  paylen : Nat
  hdrlen : Nat
  mss : Nat
  tucmd_ip : Bool
  tucmd_tcp : Bool
  tucmd_tse : Bool
  tucmd_rs : Bool
  deriving Repr, DecidableEq

/-- Legacy transmit descriptor (e1000/descriptors.rs). -/
structure TransmitDescriptorLegacy where
  buffer : Nat
  length : Nat
  cso : Nat
  css : Nat
  cmd_eop : Bool
  cmd_ic : Bool
  cmd_rs : Bool
  status_dd : Bool
  deriving Repr, DecidableEq

/-- TCP/IP data transmit descriptor (e1000/descriptors.rs). -/
structure TransmitDescriptorTcpData where
  buffer : Nat
  length : Nat
  dcmd_eop : Bool
  dcmd_rs : Bool
  popts_ixsm : Bool
  popts_txsm : Bool
  status_dd : Bool
  deriving Repr, DecidableEq

/-- Tagged union of the three transmit descriptor variants. -/
inductive TransmitDescriptor where
  | legacy (d : TransmitDescriptorLegacy)
  | tcpContext (d : TransmitDescriptorTcpContext)
  | tcpData (d : TransmitDescriptorTcpData)
  deriving Repr, DecidableEq

/-- Embeds TransmitDescriptor::report_status (RS bit of the head variant). -/
def TransmitDescriptor.report_status : TransmitDescriptor → Bool
  | .legacy d => d.cmd_rs
  | .tcpContext d => d.tucmd_rs
  | .tcpData d => d.dcmd_rs

/-- Splits a byte list into consecutive chunks of n bytes (the last chunk may
be shorter), as slice::chunks does.  Chunk size 0 is never used by the model
(Rust would panic); it returns the empty list. -/
def chunksList (l : List Nat) (n : Nat) : List (List Nat) :=
  if h : l = [] ∨ n = 0 then []
  else l.take n :: chunksList (l.drop n) n
termination_by l.length
decreasing_by
  push_neg at h
  have h1 : l.length ≠ 0 := fun hlen => h.1 (List.eq_nil_of_length_eq_zero hlen)
  have h2 : (l.drop n).length = l.length - n := List.length_drop n l
  omega

/-- Embeds transmit.rs::update_prototype_headers: patch the per-segment copy
of the prototype headers during TSO.  Offsets: IPv4 total length at
ip_css+2 / IPv6 payload length at ip_css+4, IPv4 identification at ip_css+4,
TCP sequence number at tu_css+4, TCP flags byte at tu_css+13 (FIN+PSH mask 9),
UDP length at tu_css+4. -/
def update_prototype_headers (data : List Nat) (tcp_context : TransmitDescriptorTcpContext)
    (segment_index : Nat) (last_frame : Bool) (tcp_checksum_offloaded : Bool) : List Nat :=
  let header_length := tcp_context.hdrlen
  let segment_size := tcp_context.mss
  let ip_offset := tcp_context.ip_css
  let tcp_udp_offset := tcp_context.tu_css
  let ip_total_length := (segment_size + header_length - ip_offset) % 65536
  let d1 :=
    if tcp_context.tucmd_ip then
      wrapping_add_to_u16_be_bytes
        (write_be16 data (ip_offset + 2) ip_total_length)
        (ip_offset + 4) (segment_index % 65536)
    else
      write_be16 data (ip_offset + 4) ip_total_length
  let length_after_ip := (d1.length - tcp_udp_offset) % 65536
  let d2 :=
    if tcp_checksum_offloaded then
      write_be16 d1 tcp_context.tu_cso
        (checksumUpdate (read_be16 d1 tcp_context.tu_cso)
          [length_after_ip / 256, length_after_ip % 256] [0, 0])
    else d1
  if tcp_context.tucmd_tcp then
    let d3 := wrapping_add_to_u32_be_bytes d2 (tcp_udp_offset + 4)
      (segment_size * segment_index % 4294967296)
    if last_frame then d3
    else setB d3 (tcp_udp_offset + 13) (getB d3 (tcp_udp_offset + 13) &&& 246)
  else
    write_be16 d2 (tcp_udp_offset + 4) length_after_ip

/-- Per-packet transmit sequence accumulator
(transmit.rs::TransmitDescriptorSequence). -/
structure TransmitDescriptorSequence where
  data : List Nat
  done : Bool
  tcp_context : Option TransmitDescriptorTcpContext
  insert_ip_checksum : Bool
  insert_tcp_checksum : Bool
  deriving Repr, DecidableEq

instance : Inhabited TransmitDescriptorSequence :=
  ⟨⟨[], false, none, false, false⟩⟩

/-- Default accumulator, as TransmitDescriptorSequence::default(). -/
def TransmitDescriptorSequence.empty : TransmitDescriptorSequence :=
  ⟨[], false, none, false, false⟩

/-- Checksum-fill pass of finalize: write the IP and TCP/UDP Internet
checksums into a packet when the corresponding insert flag was latched. -/
def fillChecksums (seq : TransmitDescriptorSequence)
    (tcp_context : TransmitDescriptorTcpContext) (packet : List Nat) : List Nat :=
  let p1 :=
    if seq.insert_ip_checksum then
      write_internet_checksum packet tcp_context.ip_cso tcp_context.ip_css tcp_context.ip_cse
    else packet
  if seq.insert_tcp_checksum then
    write_internet_checksum p1 tcp_context.tu_cso tcp_context.tu_css tcp_context.tu_cse
  else p1

/-- Embeds TransmitDescriptorSequence::finalize.  With a TSE TCP context the
accumulated bytes are split into a prototype header of hdrlen bytes plus
payload; the payload length must equal paylen (ensure); the payload is cut
into mss-sized chunks and each packet is prototype ++ chunk patched by
update_prototype_headers; finally checksums are filled.  Error values model
both the ensure failure and the slice-range panic. -/
def TransmitDescriptorSequence.finalize (seq : TransmitDescriptorSequence) :
    Except String (List (List Nat)) :=
  match seq.tcp_context with
  | none => .ok [seq.data]
  | some tcp_context =>
    if tcp_context.tucmd_tse then
      let header_length := tcp_context.hdrlen
      if header_length ≤ seq.data.length then
        let prototype_header := seq.data.take header_length
        let segment_data := seq.data.drop header_length
        if segment_data.length = tcp_context.paylen then
          let cks := chunksList segment_data tcp_context.mss
          let segment_count := cks.length
          let packets := (List.range segment_count).map (fun i =>
            update_prototype_headers (prototype_header ++ cks.getD i [])
              tcp_context i (i = segment_count - 1) seq.insert_tcp_checksum)
          .ok (packets.map (fillChecksums seq tcp_context))
        else .error "Payload length doesn't match"
      else .error "header slice out of range"
    else .ok ([seq.data].map (fillChecksums seq tcp_context))

/-! Host interface events.  The abstract host calls issued by the core
(interrupts.rs / the NicContext trait) are recorded as an event list;
writeBack additionally records a TX descriptor write-back at a ring index
and send records an outbound frame. -/

/-- Observable host calls made by the core. -/
inductive HostEvent where
  | trigger
  | setTimer (duration : Nat)
  | deleteTimer
  | writeBack (index : Nat)
  | send (frame : List Nat)
  deriving Repr, DecidableEq

/-- Interrupt mitigation record (interrupts.rs::InterruptMitigation); the
expiration Instant is a monotonic time in nanoseconds. -/
structure InterruptMitigation where
  expiration : Nat
  interrupt_after : Bool
  deriving Repr, DecidableEq

/-- Interrupt-related device state (the fields of E1000 that interrupts.rs
and the ICR/ICS register arms read and write).  Cause and mask are the
packed u32 values of the InterruptCauses registers; only bits
0 (TXDW), 1 (TXQE), 2 (LSC), 4 (RXDMT0), 7 (RXT0) and 9 (MDAC) are
emulated, so 663 = 0x297 is the modeled-bits mask. -/
structure IntrState where
  interrupt_cause : Nat
  interrupt_mask : Nat
  interrupt_throttling : Nat
  interrupt_mitigation : Option InterruptMitigation
  enable_interrupt_mitigation : Bool
  deriving Repr, DecidableEq

/-- Packed mask of the emulated interrupt-cause bits (0x297). -/
def modeledCauses : Nat := 663

/-- Embeds InterruptCauses::modify: clear or set the given packed cause
bits (u32 bit operations; the complement is taken within 32 bits). -/
def modifyCauses (previous_bits mask_bits : Nat) (clear : Bool) : Nat :=
  if clear then previous_bits &&& (4294967295 ^^^ mask_bits)
  else previous_bits ||| mask_bits

/-- Embeds E1000::mitigate_interrupts: move the mitigation expiration to
now + for_max unless the existing record expires first; installs a fresh
record (interrupt_after = false, no timer) when none exists; reschedules
the host timer when an armed record is tightened. -/
def mitigate_interrupts (s : IntrState) (now for_max : Nat) :
    IntrState × List HostEvent :=
  let new_expiration := now + for_max
  match s.interrupt_mitigation with
  | some mitigation =>
    if ¬ (new_expiration < mitigation.expiration) then (s, [])
    else
      let m1 : InterruptMitigation := { mitigation with expiration := new_expiration }
      let s1 := { s with interrupt_mitigation := some m1 }
      if mitigation.interrupt_after then (s1, [HostEvent.setTimer for_max])
      else (s1, [])
  | none =>
    ({ s with interrupt_mitigation := some ⟨new_expiration, false⟩ }, [])

/-- Re-arm step at the end of E1000::interrupt: when mitigation is enabled
and ITR is non-zero (get_itr_interval), install the next window of
ITR x 256 ns. -/
def interruptRearm (s : IntrState) (now : Nat) : IntrState × List HostEvent :=
  if s.enable_interrupt_mitigation then
    if s.interrupt_throttling = 0 then (s, [])
    else mitigate_interrupts s now (s.interrupt_throttling * 256)
  else (s, [])

/-- Embeds E1000::interrupt: fire the host interrupt when an unmasked cause
is pending, subject to the mitigation state machine.  now is the value of
Instant::now() during the call. -/
def interrupt (s : IntrState) (now : Nat) : IntrState × List HostEvent :=
  if s.interrupt_cause &&& s.interrupt_mask = 0 then (s, [])
  else
    match s.interrupt_mitigation with
    | some mitigation =>
      if now < mitigation.expiration then
        if mitigation.interrupt_after then (s, [])
        else
          ({ s with interrupt_mitigation := some ⟨mitigation.expiration, true⟩ },
            [HostEvent.setTimer (mitigation.expiration - now)])
      else
        let evs := if mitigation.interrupt_after
          then [HostEvent.deleteTimer, HostEvent.trigger] else [HostEvent.trigger]
        let (s2, evs2) := interruptRearm { s with interrupt_mitigation := none } now
        (s2, evs ++ evs2)
    | none =>
      let (s2, evs2) := interruptRearm s now
      (s2, HostEvent.trigger :: evs2)

/-- Embeds the ICR/ICS arms of E1000::access_register (offsets 0xC0 and
0xC8; ics selects 0xC8).  A read returns the packed cause value; an ICR
read then clears all causes.  A write lands in the interrupt_temp register,
whose unpack keeps only the emulated bits, then InterruptCauses::modify
clears (ICR) or sets (ICS) those bits and interrupt() is re-evaluated.
Returns (read value, new state, host events). -/
def icr_ics_access (s : IntrState) (ics write : Bool) (data now : Nat) :
    Nat × IntrState × List HostEvent :=
  if ¬ write then
    if ics then (s.interrupt_cause, s, [])
    else (s.interrupt_cause, { s with interrupt_cause := 0 }, [])
  else
    let temp := data &&& modeledCauses
    let cause2 := modifyCauses s.interrupt_cause temp (¬ ics)
    let (s2, evs) := interrupt { s with interrupt_cause := cause2 } now
    (0, s2, evs)

/-! Descriptor rings and guest memory. -/

/-- Descriptor ring registers (descriptors.rs::DescriptorRing). -/
structure DescRing where
  ring_address : Nat
  length : Nat
  head : Nat
  tail : Nat
  deriving Repr, DecidableEq

/-- Embeds DescriptorRing::advance_head. -/
def DescRing.advance_head (r : DescRing) : DescRing :=
  { r with head := (r.head + 1) % r.length }

/-- Modelled from the spec: hardware_owned_descriptors is called by
receive.rs but its definition is not among the src sources (only this
caller is); the spec defines it as (tail - head) mod length. -/
def DescRing.hardware_owned_descriptors (r : DescRing) : Nat :=
  (r.tail + r.length - r.head) % r.length

/-- Reads n bytes of guest memory starting at address a (u8 values). -/
def readBytes (m : Nat → Nat) (a n : Nat) : List Nat :=
  (List.range n).map (fun j => m (a + j) % 256)

/-- DMA write of a byte list at address a. -/
def writeBytes (m : Nat → Nat) (a : Nat) (bs : List Nat) : Nat → Nat :=
  fun p => if a ≤ p ∧ p < a + bs.length then getB bs (p - a) else m p

/-! Receive pipeline. -/

/-- Receive descriptor fields used by the model
(e1000/descriptors.rs::ReceiveDescriptor). -/
structure ReceiveDescriptor where
  buffer : Nat
  length : Nat
  status_dd : Bool
  status_eop : Bool
  deriving Repr, DecidableEq

/-- Decodes a 16-byte guest-memory slot into a receive descriptor.  The
packed_struct layout (lsb0 bits, msb fields) combined with the 16-byte
reversal on DMA read yields the datasheet layout: buffer is a
little-endian u64 at bytes 0..8, length a little-endian u16 at bytes 8..10,
and the status byte at byte 12 carries DD (bit 0) and EOP (bit 1). -/
def decodeRxDesc (bytes : List Nat) : ReceiveDescriptor :=
  { buffer := (bytes.take 8).foldr (fun b acc => b % 256 + 256 * acc) 0
    length := getB bytes 8 % 256 + 256 * (getB bytes 9 % 256)
    status_dd := Nat.testBit (getB bytes 12) 0
    status_eop := Nat.testBit (getB bytes 12) 1 }

/-- Encodes a receive descriptor back into the 16 bytes written to the
slot; fields not modeled pack as zero. -/
def encodeRxDesc (d : ReceiveDescriptor) : List Nat :=
  [d.buffer % 256, d.buffer / 256 % 256, d.buffer / 65536 % 256,
    d.buffer / 16777216 % 256, d.buffer / 4294967296 % 256,
    d.buffer / 1099511627776 % 256, d.buffer / 281474976710656 % 256,
    d.buffer / 72057594037927936 % 256,
    d.length % 256, d.length / 256 % 256, 0, 0,
    (if d.status_dd then 1 else 0) + (if d.status_eop then 2 else 0),
    0, 0, 0]

/-- Receive lifecycle state (receive.rs::ReceiveState). -/
inductive ReceiveState where
  | Offline
  | Online
  | Throttled
  deriving Repr, DecidableEq

/-- Embeds ReceiveState::is_ready. -/
def ReceiveState.is_ready : ReceiveState → Bool
  | .Online => true
  | _ => false

/-- Embeds ReceiveState::should_defer. -/
def ReceiveState.should_defer : ReceiveState → Bool
  | .Throttled => true
  | _ => false

/-- Receive-control register fields used by the model (RCTL). -/
structure ReceiveControl where
  EN : Bool
  BSIZE : Fin 4
  BSEX : Bool
  SECRC : Bool
  deriving Repr, DecidableEq

/-- Embeds ReceiveControl::get_buffer_size (BSIZE decodes
2048/1024/512/256 bytes, multiplied by 16 when BSEX is set). -/
def ReceiveControl.get_buffer_size (r : ReceiveControl) : Nat :=
  (match r.BSIZE.val with
    | 0 => 2048
    | 1 => 1024
    | 2 => 512
    | _ => 256) * (if r.BSEX then 16 else 1)

/-- Device state touched by the receive path (E1000 fields used by
receive.rs). -/
structure RxState where
  mem : Nat → Nat
  rx_ring : Option DescRing
  rctl : ReceiveControl
  rd_h : Nat
  receive_state : ReceiveState
  intr : IntrState

/-- Embeds E1000::update_rx_throttling: throttle when at most
RX_QUEUE_RESERVE = 1 hardware-owned descriptors remain, come back online
when more are available. -/
def update_rx_throttling (s : RxState) : RxState :=
  match s.rx_ring with
  | none => s
  | some rx_ring =>
    let hw_descriptors := rx_ring.hardware_owned_descriptors
    let currently_throttled := s.receive_state = ReceiveState.Throttled
    let should_throttle := hw_descriptors ≤ 1
    if ¬ currently_throttled ∧ should_throttle then
      { s with receive_state := ReceiveState.Throttled }
    else if currently_throttled ∧ ¬ should_throttle then
      { s with receive_state := ReceiveState.Online }
    else s

/-- Embeds E1000::receive (e1000/receive.rs): place one inbound frame into
the head RX descriptor.  Asserts (panics) on an empty frame or a not-ready
device; errors when the ring is missing or empty; todo-panics on an
oversized frame or a null buffer; otherwise DMA-writes the frame, writes
back the descriptor with adjusted length (len + 4 unless RCTL.SECRC) and
DD = EOP = 1, advances head into RDH, recomputes throttling and reports
RXT0 (cause bit 7). -/
def receive (s : RxState) (received : List Nat) (now : Nat) :
    Except String (RxState × List HostEvent) :=
  if received.length = 0 then .error "receive called with no data"
  else if ¬ s.receive_state.is_ready then .error "receive called but nic is not ready"
  else match s.rx_ring with
  | none => .error "RX Ring not yet initialized"
  | some rx_ring =>
    if rx_ring.head = rx_ring.tail then
      .error "Cannot read head, head is currently owned by software"
    else
      let slot_address := rx_ring.ring_address + rx_ring.head * 16
      let descriptor := decodeRxDesc (readBytes s.mem slot_address 16)
      let received_length := received.length + (if s.rctl.SECRC then 0 else 4)
      let descriptor1 := { descriptor with
        length := received_length % 65536
        status_eop := true
        status_dd := true }
      let buffer_size := s.rctl.get_buffer_size
      if buffer_size < received_length then
        .error "Multiple RX descriptors per packet not yet supported"
      else if descriptor.buffer = 0 then
        .error "RX Descriptor null padding not yet supported"
      else
        let mem1 := writeBytes s.mem descriptor.buffer received
        let mem2 := writeBytes mem1 slot_address (encodeRxDesc descriptor1)
        let ring1 := { rx_ring with head := (rx_ring.head + 1) % rx_ring.length }
        let s1 := { s with mem := mem2, rx_ring := some ring1, rd_h := ring1.head % 65536 }
        let s2 := update_rx_throttling s1
        let intr1 := { s2.intr with interrupt_cause := s2.intr.interrupt_cause ||| 128 }
        .ok ({ s2 with intr := (interrupt intr1 now).1 }, (interrupt intr1 now).2)

/-! Transmit pipeline. -/

/-- Result of feeding one descriptor to the sequence accumulator.  The
source distinguishes recoverable errors (anyhow ensure!, caught in the TX
drain, which keeps the partially mutated accumulator) from panics
(assert! / todo!, which abort the process). -/
inductive AddResult where
  | ok (seq : TransmitDescriptorSequence)
  | recoverable (seq : TransmitDescriptorSequence) (msg : String)
  | panic (msg : String)
  deriving Repr, DecidableEq

/-- Embeds TransmitDescriptorSequence::add_descriptor together with
read_to_buffer.  Legacy descriptors must not appear inside a TCP sequence
and cmd_ic is a todo-panic; a context must be the first of its sequence; a
data descriptor needs a context and latches the checksum-insert options on
the first data bytes; buffers are DMA-read and appended; a null buffer
address is a recoverable ensure failure. -/
def TransmitDescriptorSequence.add_descriptor (seq : TransmitDescriptorSequence)
    (descriptor : TransmitDescriptor) (bufMem : Nat → Nat) : AddResult :=
  if seq.done then .panic "assertion failed: !self.done"
  else
    match descriptor with
    | .legacy d =>
      if seq.tcp_context.isSome then
        .recoverable seq "Legacy transmit descriptor in tcp sequence"
      else if d.cmd_ic then
        .panic "Inserting checksum in legacy descriptor not implemented yet"
      else if d.buffer = 0 then
        .recoverable seq "Transmit descriptor buffer address is null"
      else
        .ok { seq with
          data := seq.data ++ readBytes bufMem d.buffer d.length
          done := d.cmd_eop }
    | .tcpContext d =>
      if seq.tcp_context.isSome then
        .recoverable seq "Second tcp context transmit descriptor in sequence"
      else .ok { seq with tcp_context := some d }
    | .tcpData d =>
      if seq.tcp_context.isNone then
        .recoverable seq "Tcp data transmit descriptor without context in sequence"
      else
        let seq1 := if seq.data.isEmpty then
          { seq with
            insert_ip_checksum := d.popts_ixsm
            insert_tcp_checksum := d.popts_txsm }
          else seq
        if d.buffer = 0 then
          .recoverable seq1 "Transmit descriptor buffer address is null"
        else
          .ok { seq1 with
            data := seq1.data ++ readBytes bufMem d.buffer d.length
            done := d.dcmd_eop }

/-- Hands the finalized packets to host.send in order; a host failure or a
short send is an unwrap/assert panic in the source. -/
def sendPackets (host : List Nat → Except String Nat) :
    List (List Nat) → Except String (List HostEvent)
  | [] => .ok []
  | p :: rest =>
    match host p with
    | .error e => .error e
    | .ok sent =>
      if sent = p.length then
        (sendPackets host rest).map (fun evs => HostEvent.send p :: evs)
      else .error "Did not send specified packet length"

/-- Loop-carried state of the TX drain (the locals of
E1000::process_tx_ring plus the ring and the TDH register). -/
structure TxLoopSt where
  ring : DescRing
  seq : TransmitDescriptorSequence
  report_status : Bool
  td_h : Nat
  deriving Repr, DecidableEq

/-- Embeds the while-loop of E1000::process_tx_ring.  descs stands for
TransmitDescriptor::read_descriptor at a ring index (DMA read, reversal and
unpack); a read failure is unwrapped (panic).  Recoverable accumulator
errors are logged and skipped: head advances, TDH is left untouched by the
continue.  Otherwise an RS-marked descriptor is written back with DD set
(recorded as a writeBack event), the head advances, a completed sequence is
finalized and sent (unwrap panics on failure), and TDH is synchronized with
the new head.  The fuel argument bounds the iterations; the drain performs
(tail - head) mod length iterations, so fuel = length + 1 never runs out.

Rust iterates until is_empty; the fuel-exhausted error stands for the
divergence that an out-of-range tail would cause in the source. -/
def txLoop (host : List Nat → Except String Nat)
    (descs : Nat → Except String TransmitDescriptor) (bufMem : Nat → Nat) :
    Nat → TxLoopSt → Except String (TxLoopSt × List HostEvent)
  | 0, st =>
    if st.ring.head = st.ring.tail then .ok (st, [])
    else .error "loop fuel exhausted"
  | fuel + 1, st =>
    if st.ring.head = st.ring.tail then .ok (st, [])
    else
      match descs st.ring.head with
      | .error e => .error e
      | .ok transmit_descriptor =>
        match st.seq.add_descriptor transmit_descriptor bufMem with
        | .panic msg => .error msg
        | .recoverable seq1 _ =>
          txLoop host descs bufMem fuel
            { st with ring := st.ring.advance_head, seq := seq1 }
        | .ok seq1 =>
          let report1 := st.report_status || transmit_descriptor.report_status
          let evs1 := if transmit_descriptor.report_status
            then [HostEvent.writeBack st.ring.head] else []
          let ring1 := st.ring.advance_head
          match (if seq1.done then
              seq1.finalize.bind (fun packets =>
                (sendPackets host packets).map
                  (fun evs2 => (TransmitDescriptorSequence.empty, evs2)))
            else .ok (seq1, [])) with
          | .error e => .error e
          | .ok (seq2, evs2) =>
            match txLoop host descs bufMem fuel
                { ring := ring1, seq := seq2, report_status := report1,
                  td_h := ring1.head % 65536 } with
            | .error e => .error e
            | .ok (st2, evs3) => .ok (st2, evs1 ++ evs2 ++ evs3)

/-- Device state touched by the TX drain (E1000 fields used by
process_tx_ring). -/
structure TxState where
  tx_ring : Option DescRing
  td_h : Nat
  td_t : Nat
  intr : IntrState
  deriving Repr, DecidableEq

/-- Embeds E1000::process_tx_ring: with a TX ring present, copy TDT into
the ring tail, drain the ring, then report TXDW and TXQE (cause bits 0 and
1) when some descriptor requested status, else TXQE alone, re-evaluating
interrupt(). -/
def process_tx_ring (host : List Nat → Except String Nat)
    (descs : Nat → Except String TransmitDescriptor) (bufMem : Nat → Nat)
    (s : TxState) (now : Nat) : Except String (TxState × List HostEvent) :=
  match s.tx_ring with
  | none => .ok (s, [])
  | some ring0 =>
    let ring := { ring0 with tail := s.td_t }
    match txLoop host descs bufMem (ring.length + 1)
        { ring := ring, seq := .empty, report_status := false, td_h := s.td_h } with
    | .error e => .error e
    | .ok (stF, evs) =>
      let caused := s.intr.interrupt_cause ||| (if stF.report_status then 3 else 2)
      let intr1 : IntrState := { s.intr with interrupt_cause := caused }
      .ok ({ s with tx_ring := some stF.ring, td_h := stF.td_h, intr := (interrupt intr1 now).1 },
        evs ++ (interrupt intr1 now).2)

/-- True when the event list records a TX descriptor write-back (which the
drain performs exactly for RS-marked descriptors it accumulated). -/
def hasWriteBack (evs : List HostEvent) : Bool :=
  evs.any fun e => match e with
    | .writeBack _ => true
    | _ => false

/-! EEPROM initial-image packing. -/

/-- Embeds EepromInterface::pack_initial_eeprom.  The 128-byte packed
initial image is reversed; all words but the last are copied out of it
little-endian while summing into a wrapping u16 accumulator; the final word
is 0xBABA wrapping-minus that sum.  Returns the 64 resulting data words. -/
def pack_initial_eeprom (pack : List Nat) : List Nat :=
  let packr := pack.reverse
  let words := (List.range 63).map (fun i =>
    getB packr (2 * i) % 256 + 256 * (getB packr (2 * i + 1) % 256))
  let sum := words.foldl (fun acc w => (acc + w) % 65536) 0
  words ++ [(47802 + 65536 - sum) % 65536]

/-! Concrete instances used by witnesses and counterexamples. -/

/-- Concrete TSO context: 20-byte header prototype (IPv4 fields at offset
0, TCP fields at offset 6 in this toy layout), MSS 2, payload length 3. -/
def ctxC : TransmitDescriptorTcpContext :=
  { ip_css := 0, ip_cso := 10, ip_cse := 0, tu_css := 6, tu_cso := 16,
    tu_cse := 0, paylen := 3, hdrlen := 20, mss := 2,
    tucmd_ip := true, tucmd_tcp := true, tucmd_tse := true, tucmd_rs := false }

/-- Concrete finalized sequence for the TSO claims: header plus 3 payload
bytes, segmenting into one full and one short packet. -/
def seqC : TransmitDescriptorSequence :=
  { data := List.replicate 20 0 ++ [1, 2, 3], done := true,
    tcp_context := some ctxC, insert_ip_checksum := false,
    insert_tcp_checksum := false }

/-- Interrupt state with everything quiescent. -/
def intrQuiet : IntrState :=
  { interrupt_cause := 0, interrupt_mask := 0, interrupt_throttling := 0,
    interrupt_mitigation := none, enable_interrupt_mitigation := false }

/-- Concrete guest memory for the receive witness: the RX descriptor at
ring slot 0 holds buffer address 512 (little-endian byte 1 = 2). -/
def memC : Nat → Nat := fun p => if p = 1 then 2 else 0

/-- Concrete receive state: 8-slot ring at guest address 0, head 0, tail 7,
RCTL with EN, BSIZE 2048 and SECRC clear. -/
def rxC : RxState :=
  { mem := memC
    rx_ring := some { ring_address := 0, length := 8, head := 0, tail := 7 }
    rctl := { EN := true, BSIZE := 0, BSEX := false, SECRC := false }
    rd_h := 0
    receive_state := ReceiveState.Online
    intr := intrQuiet }

/-- Concrete interrupt state with an active mitigation window and a
pending unmasked cause. -/
def intrC4 : IntrState :=
  { interrupt_cause := 4, interrupt_mask := 4, interrupt_throttling := 0,
    interrupt_mitigation := some ⟨100, false⟩,
    enable_interrupt_mitigation := true }

/-- Descriptor oracle: slot 0 holds a well-formed legacy descriptor
without RS, everything else is out of the mapping. -/
def descsLegacy : Nat → Except String TransmitDescriptor := fun i =>
  if i = 0 then
    .ok (.legacy {
      buffer := 4096
      length := 2
      cso := 0
      css := 0
      cmd_eop := true
      cmd_ic := false
      cmd_rs := false
      status_dd := false })
  else .error "Descriptor not in mapping"

/-- Descriptor oracle: slot 0 holds a TCP data descriptor with no
preceding context (a recoverable per-descriptor error). -/
def descsOrphanData : Nat → Except String TransmitDescriptor := fun i =>
  if i = 0 then
    .ok (.tcpData {
      buffer := 4096
      length := 2
      dcmd_eop := true
      dcmd_rs := false
      popts_ixsm := false
      popts_txsm := false
      status_dd := false })
  else .error "Descriptor not in mapping"

/-- Host whose send always fails. -/
def hostFail : List Nat → Except String Nat := fun _ => .error "send failed"

/-- Host whose send accepts every frame in full. -/
def hostOk : List Nat → Except String Nat := fun p => .ok p.length

/-- All-zero guest packet memory. -/
def bufMemC : Nat → Nat := fun _ => 0

/-- Concrete TX state: 8-slot ring, head 0, one committed descriptor
(TDT = 1). -/
def txC : TxState :=
  { tx_ring := some { ring_address := 0, length := 8, head := 0, tail := 0 },
    td_h := 0, td_t := 1, intr := intrQuiet }

/-- Concrete TX state whose TXDW cause bit is already set before the
drain (ICR has not been read since an earlier RS drain). -/
def txC6 : TxState :=
  { tx_ring := some { ring_address := 0, length := 8, head := 0, tail := 0 }
    td_h := 0
    td_t := 1
    intr := {
      interrupt_cause := 1
      interrupt_mask := 0
      interrupt_throttling := 0
      interrupt_mitigation := none
      enable_interrupt_mitigation := false } }

/-- Descriptor oracle: every slot holds a well-formed legacy descriptor
(EOP set, RS clear, non-null buffer, no IC). -/
def descsLegacyAll : Nat → Except String TransmitDescriptor := fun _ =>
  .ok (.legacy {
    buffer := 4096
    length := 2
    cso := 0
    css := 0
    cmd_eop := true
    cmd_ic := false
    cmd_rs := false
    status_dd := false })

/-- Descriptor oracle: every slot legacy, but slot 0 has a null buffer
address (a recoverable per-descriptor error the drain must skip). -/
def descsMixed : Nat → Except String TransmitDescriptor := fun i =>
  .ok (.legacy {
    buffer := if i = 0 then 0 else 4096
    length := 2
    cso := 0
    css := 0
    cmd_eop := true
    cmd_ic := false
    cmd_rs := false
    status_dd := false })

/-- Normal form of update_prototype_headers for an IPv4 TCP context with
checksum offload disabled: patch the IP total length, advance the IPv4
identification by the segment index, advance the TCP sequence number by
mss x index, and clear FIN and PSH on every frame but the last. -/
def tsoPatchNoChecksum (data : List Nat) (ctx : TransmitDescriptorTcpContext)
    (i : Nat) (last : Bool) : List Nat :=
  let w1 := write_be16 data (ctx.ip_css + 2) ((ctx.mss + ctx.hdrlen - ctx.ip_css) % 65536)
  let w2 := wrapping_add_to_u16_be_bytes w1 (ctx.ip_css + 4) (i % 65536)
  let w3 := wrapping_add_to_u32_be_bytes w2 (ctx.tu_css + 4) (ctx.mss * i % 4294967296)
  if last then w3 else setB w3 (ctx.tu_css + 13) (getB w3 (ctx.tu_css + 13) &&& 246)

/-! Helper lemmas about the byte-list operations. -/

theorem length_setB (l : List Nat) (i v : Nat) : (setB l i v).length = l.length :=
  List.length_set l i v

theorem getB_setB_ne (l : List Nat) (i v p : Nat) (h : p ≠ i) :
    getB (setB l i v) p = getB l p := by
  unfold getB setB
  rw [List.getD_eq_getElem?_getD, List.getD_eq_getElem?_getD, List.getElem?_set,
    if_neg (Ne.symm h)]

theorem getB_setB_eq (l : List Nat) (i v : Nat) (h : i < l.length) :
    getB (setB l i v) i = v := by
  unfold getB setB
  rw [List.getD_eq_getElem?_getD, List.getElem?_set, if_pos rfl, if_pos h]
  rfl

theorem drop_setB_of_lt (l : List Nat) (i v n : Nat) (h : i < n) :
    (setB l i v).drop n = l.drop n := by
  unfold setB
  apply List.ext_getElem?
  intro m
  rw [List.getElem?_drop, List.getElem?_drop, List.getElem?_set, if_neg (by omega)]

theorem length_write_be16 (l : List Nat) (off v : Nat) :
    (write_be16 l off v).length = l.length := by
  simp [write_be16, length_setB]

theorem length_write_be32 (l : List Nat) (off v : Nat) :
    (write_be32 l off v).length = l.length := by
  simp [write_be32, length_setB]

theorem getB_write_be16_ne (l : List Nat) (off v p : Nat)
    (h1 : p ≠ off) (h2 : p ≠ off + 1) :
    getB (write_be16 l off v) p = getB l p := by
  unfold write_be16
  rw [getB_setB_ne _ _ _ _ h2, getB_setB_ne _ _ _ _ h1]

theorem getB_write_be32_ne (l : List Nat) (off v p : Nat)
    (h1 : p ≠ off) (h2 : p ≠ off + 1) (h3 : p ≠ off + 2) (h4 : p ≠ off + 3) :
    getB (write_be32 l off v) p = getB l p := by
  unfold write_be32
  rw [getB_setB_ne _ _ _ _ h4, getB_setB_ne _ _ _ _ h3,
    getB_setB_ne _ _ _ _ h2, getB_setB_ne _ _ _ _ h1]

theorem read_be16_write_be16 (l : List Nat) (off v : Nat)
    (h : off + 1 < l.length) (hv : v < 65536) :
    read_be16 (write_be16 l off v) off = v := by
  unfold read_be16 write_be16
  rw [getB_setB_ne _ _ _ _ (by omega), getB_setB_eq _ _ _ (by omega),
    getB_setB_eq _ _ _ (by rw [length_setB]; omega)]
  have e1 := Nat.div_add_mod v 256
  have h2 : v / 256 < 256 := Nat.div_lt_of_lt_mul (by omega)
  have h3 : v / 256 % 256 = v / 256 := Nat.mod_eq_of_lt h2
  omega

theorem read_be32_write_be32 (l : List Nat) (off v : Nat)
    (h : off + 3 < l.length) (hv : v < 4294967296) :
    read_be32 (write_be32 l off v) off = v := by
  have g0 : getB (write_be32 l off v) off = v / 16777216 % 256 := by
    unfold write_be32
    rw [getB_setB_ne _ _ _ _ (by omega), getB_setB_ne _ _ _ _ (by omega),
      getB_setB_ne _ _ _ _ (by omega),
      getB_setB_eq _ _ _ (by (try simp only [setB, List.length_set]); omega)]
  have g1 : getB (write_be32 l off v) (off + 1) = v / 65536 % 256 := by
    unfold write_be32
    rw [getB_setB_ne _ _ _ _ (by omega), getB_setB_ne _ _ _ _ (by omega),
      getB_setB_eq _ _ _ (by (try simp only [setB, List.length_set]); omega)]
  have g2 : getB (write_be32 l off v) (off + 2) = v / 256 % 256 := by
    unfold write_be32
    rw [getB_setB_ne _ _ _ _ (by omega),
      getB_setB_eq _ _ _ (by (try simp only [setB, List.length_set]); omega)]
  have g3 : getB (write_be32 l off v) (off + 3) = v % 256 := by
    unfold write_be32
    rw [getB_setB_eq _ _ _ (by (try simp only [setB, List.length_set]); omega)]
  unfold read_be32
  rw [g0, g1, g2, g3]
  have e1 := Nat.div_add_mod v 256
  have e2 := Nat.div_add_mod (v / 256) 256
  have e3 := Nat.div_add_mod (v / 65536) 256
  have e4 : v / 256 / 256 = v / 65536 := by rw [Nat.div_div_eq_div_mul]
  have e5 : v / 65536 / 256 = v / 16777216 := by
    rw [Nat.div_div_eq_div_mul]
  have hd : v / 16777216 < 256 := Nat.div_lt_of_lt_mul (by omega)
  have hd2 : v / 16777216 % 256 = v / 16777216 := Nat.mod_eq_of_lt hd
  omega

theorem read_be16_congr (l1 l2 : List Nat) (off : Nat)
    (h0 : getB l1 off = getB l2 off) (h1 : getB l1 (off + 1) = getB l2 (off + 1)) :
    read_be16 l1 off = read_be16 l2 off := by
  unfold read_be16
  rw [h0, h1]

theorem read_be32_congr (l1 l2 : List Nat) (off : Nat)
    (h0 : getB l1 off = getB l2 off) (h1 : getB l1 (off + 1) = getB l2 (off + 1))
    (h2 : getB l1 (off + 2) = getB l2 (off + 2))
    (h3 : getB l1 (off + 3) = getB l2 (off + 3)) :
    read_be32 l1 off = read_be32 l2 off := by
  unfold read_be32
  rw [h0, h1, h2, h3]

theorem drop_write_be16_of_lt (l : List Nat) (off v n : Nat) (h : off + 1 < n) :
    (write_be16 l off v).drop n = l.drop n := by
  unfold write_be16
  rw [drop_setB_of_lt _ _ _ _ (by omega), drop_setB_of_lt _ _ _ _ (by omega)]

theorem drop_write_be32_of_lt (l : List Nat) (off v n : Nat) (h : off + 3 < n) :
    (write_be32 l off v).drop n = l.drop n := by
  unfold write_be32
  rw [drop_setB_of_lt _ _ _ _ (by omega), drop_setB_of_lt _ _ _ _ (by omega),
    drop_setB_of_lt _ _ _ _ (by omega), drop_setB_of_lt _ _ _ _ (by omega)]

theorem getB_append_lt (l1 l2 : List Nat) (p : Nat) (h : p < l1.length) :
    getB (l1 ++ l2) p = getB l1 p :=
  List.getD_append l1 l2 0 p h

theorem getB_append_ge (l1 l2 : List Nat) (p : Nat) (h : l1.length ≤ p) :
    getB (l1 ++ l2) p = getB l2 (p - l1.length) :=
  List.getD_append_right l1 l2 0 p h

theorem getB_take (l : List Nat) (n p : Nat) (h : p < n) :
    getB (l.take n) p = getB l p := by
  unfold getB
  rw [List.getD_eq_getElem?_getD, List.getD_eq_getElem?_getD, List.getElem?_take,
    if_pos h]

/-! EEPROM checksum invariant (C7). -/

theorem foldl_mod_add (l : List Nat) (a : Nat) :
    l.foldl (fun acc w => (acc + w) % 65536) (a % 65536) = (a + l.sum) % 65536 := by
  induction l generalizing a with
  | nil => simp
  | cons x xs ih =>
    simp only [List.foldl_cons, List.sum_cons]
    rw [Nat.mod_add_mod, ih (a + x), Nat.add_assoc]

/-- C7: after pack_initial_eeprom, the 64 data words sum to 0xBABA mod 2^16:
the first 63 words are the ones copied from the reversed packed image, and
the final word is 0xBABA wrapping-minus the wrapping sum S of the copied
words. -/
theorem eeprom_checksum_invariant (pack : List Nat) :
    (pack_initial_eeprom pack).length = 64 ∧
    getB (pack_initial_eeprom pack) 63 =
      (47802 + 65536 - ((pack_initial_eeprom pack).take 63).foldl
        (fun acc w => (acc + w) % 65536) 0) % 65536 ∧
    (pack_initial_eeprom pack).sum % 65536 = 47802 := by
  have key : ∀ words : List Nat, words.length = 63 →
      (words ++ [(47802 + 65536 - words.foldl (fun acc w => (acc + w) % 65536) 0) % 65536]).length = 64 ∧
      getB (words ++ [(47802 + 65536 - words.foldl (fun acc w => (acc + w) % 65536) 0) % 65536]) 63 =
        (47802 + 65536 - ((words ++ [(47802 + 65536 - words.foldl (fun acc w => (acc + w) % 65536) 0) % 65536]).take 63).foldl
          (fun acc w => (acc + w) % 65536) 0) % 65536 ∧
      (words ++ [(47802 + 65536 - words.foldl (fun acc w => (acc + w) % 65536) 0) % 65536]).sum % 65536 = 47802 := by
    intro words hlen
    have hsum0 : words.foldl (fun acc w => (acc + w) % 65536) 0 = words.sum % 65536 := by
      have := foldl_mod_add words 0
      simpa using this
    have htake : (words ++ [(47802 + 65536 - words.foldl (fun acc w => (acc + w) % 65536) 0) % 65536]).take 63 = words := by
      rw [List.take_append_of_le_length (by omega), List.take_of_length_le (by omega)]
    refine ⟨?_, ?_, ?_⟩
    · rw [List.length_append, hlen]; rfl
    · rw [htake, getB_append_ge _ _ _ (by omega), hlen]
      rfl
    · rw [List.sum_append, List.sum_cons, List.sum_nil, hsum0]
      have hmod := Nat.mod_add_div words.sum 65536
      omega
  unfold pack_initial_eeprom
  exact key _ (by rw [List.length_map, List.length_range])

/-! Interrupt mitigation lemmas (C9, C4). -/

/-- C9: when a mitigation record exists, mitigate_interrupts(for_max) makes
the expiration the minimum of its old value and now + for_max (never
postponing it), keeps interrupt_after, and returns without any change or
host call when the old expiration is not later than now + for_max. -/
theorem mitigate_interrupts_never_postpones (s : IntrState) (now for_max : Nat)
    (m : InterruptMitigation) (h : s.interrupt_mitigation = some m) :
    (∃ m2, (mitigate_interrupts s now for_max).1.interrupt_mitigation = some m2 ∧
      m2.expiration = min m.expiration (now + for_max) ∧
      m2.expiration ≤ m.expiration ∧
      m2.interrupt_after = m.interrupt_after) ∧
    (m.expiration ≤ now + for_max → mitigate_interrupts s now for_max = (s, [])) := by
  unfold mitigate_interrupts
  rw [h]
  simp only []
  by_cases hc : now + for_max < m.expiration
  · rw [if_neg (by omega)]
    constructor
    · refine ⟨⟨now + for_max, m.interrupt_after⟩, ?_, ?_, ?_, rfl⟩
      · by_cases hafter : m.interrupt_after = true
        · rw [if_pos hafter]
        · rw [if_neg hafter]
      · dsimp only
        omega
      · dsimp only
        omega
    · intro hle; omega
  · rw [if_pos (by omega)]
    refine ⟨⟨m, h, ?_, Nat.le_refl _, rfl⟩, fun _ => rfl⟩
    omega

/-- C4: while a mitigation record with expiration > now is present, a call
to interrupt() never issues trigger_interrupt; when there is an unmasked
candidate cause, the suppressed candidate arms the one-shot timer for
expiration - now and sets interrupt_after if it was clear, and does nothing
at all if interrupt_after was already set. -/
theorem interrupt_mitigation_suppresses (s : IntrState) (now : Nat)
    (m : InterruptMitigation) (hm : s.interrupt_mitigation = some m)
    (hact : now < m.expiration) :
    HostEvent.trigger ∉ (interrupt s now).2 ∧
    (s.interrupt_cause &&& s.interrupt_mask ≠ 0 →
      (m.interrupt_after = false →
        interrupt s now =
          ({ s with interrupt_mitigation := some ⟨m.expiration, true⟩ },
            [HostEvent.setTimer (m.expiration - now)])) ∧
      (m.interrupt_after = true → interrupt s now = (s, []))) := by
  unfold interrupt
  rw [hm]
  by_cases hc : s.interrupt_cause &&& s.interrupt_mask = 0
  · rw [if_pos hc]
    exact ⟨by simp, fun hne => absurd hc hne⟩
  · rw [if_neg hc]
    dsimp only
    rw [if_pos hact]
    by_cases hafter : m.interrupt_after = true
    · rw [if_pos hafter]
      refine ⟨by simp, fun _ => ⟨fun hf => ?_, fun _ => rfl⟩⟩
      rw [hf] at hafter
      exact absurd hafter (by simp)
    · rw [if_neg hafter]
      refine ⟨by simp, fun _ => ⟨fun _ => rfl, fun ht => absurd ht hafter⟩⟩

/-- Witness for C9: a live record expiring at 100 tightened at now = 40 by
30 ends at min 100 70 = 70. -/
theorem mitigate_interrupts_never_postpones_witness :
    intrC4.interrupt_mitigation = some ⟨100, false⟩ ∧
    (∃ m2, (mitigate_interrupts intrC4 40 30).1.interrupt_mitigation = some m2 ∧
      m2.expiration = min 100 70 ∧ m2.expiration ≤ 100 ∧ m2.interrupt_after = false) :=
  ⟨rfl, (mitigate_interrupts_never_postpones intrC4 40 30 ⟨100, false⟩ rfl).1⟩

/-- Witness for C4: with a pending unmasked cause and a mitigation window
open until 100, interrupt() at now = 40 issues no trigger_interrupt. -/
theorem interrupt_mitigation_suppresses_witness :
    intrC4.interrupt_mitigation = some ⟨100, false⟩ ∧ 40 < 100 ∧
    HostEvent.trigger ∉ (interrupt intrC4 40).2 :=
  ⟨rfl, by decide,
    (interrupt_mitigation_suppresses intrC4 40 ⟨100, false⟩ rfl (by decide)).1⟩

/-! ICR/ICS register semantics (C8). -/

theorem testBit_663_lt (i : Nat) (h : Nat.testBit 663 i = true) : i < 10 := by
  by_contra hge
  push_neg at hge
  have hlt : (663 : Nat) < 2 ^ i :=
    lt_of_lt_of_le (by norm_num)
      (Nat.pow_le_pow_right (by norm_num) hge)
  rw [Nat.testBit_lt_two_pow hlt] at h
  cases h

theorem testBit_u32_ones (i : Nat) (h : i < 32) : Nat.testBit 4294967295 i = true := by
  have he : (4294967295 : Nat) = 2 ^ 32 - 1 := by norm_num
  rw [he, Nat.testBit_two_pow_sub_one]
  simpa using h

theorem modifyCauses_clear_testBit (c v : Nat)
    (hinv : c &&& modeledCauses = c) (i : Nat) :
    (modifyCauses c (v &&& modeledCauses) true).testBit i =
      (c.testBit i && ! v.testBit i) := by
  unfold modeledCauses at hinv
  have hc : c.testBit i = (c.testBit i && Nat.testBit 663 i) := by
    conv_lhs => rw [← hinv]
    rw [Nat.testBit_and]
  show (c &&& (4294967295 ^^^ (v &&& 663))).testBit i = _
  simp only [Nat.testBit_and, Nat.testBit_xor]
  by_cases h663 : Nat.testBit 663 i = true
  · have hi : i < 10 := testBit_663_lt i h663
    rw [h663, testBit_u32_ones i (by omega)]
    cases hv : v.testBit i <;> cases hcb : c.testBit i <;> simp
  · have h663f : Nat.testBit 663 i = false := by
      cases hx : Nat.testBit 663 i
      · rfl
      · exact absurd hx h663
    have hcf : c.testBit i = false := by rw [hc, h663f, Bool.and_false]
    rw [hcf, h663f]
    simp

theorem modifyCauses_set_testBit (c v : Nat) (i : Nat)
    (h663 : Nat.testBit modeledCauses i = true) :
    (modifyCauses c (v &&& modeledCauses) false).testBit i =
      (c.testBit i || v.testBit i) := by
  unfold modeledCauses at h663
  show (c ||| (v &&& 663)).testBit i = _
  rw [Nat.testBit_or, Nat.testBit_and, h663, Bool.and_true]

theorem mitigate_interrupts_cause (s : IntrState) (now fm : Nat) :
    (mitigate_interrupts s now fm).1.interrupt_cause = s.interrupt_cause := by
  unfold mitigate_interrupts
  rcases h : s.interrupt_mitigation with _ | m
  · rfl
  · dsimp only
    split
    · rfl
    · split <;> rfl

theorem interruptRearm_cause (s : IntrState) (now : Nat) :
    (interruptRearm s now).1.interrupt_cause = s.interrupt_cause := by
  unfold interruptRearm
  split
  · split
    · rfl
    · exact mitigate_interrupts_cause s now (s.interrupt_throttling * 256)
  · rfl

theorem interrupt_cause_preserved (s : IntrState) (now : Nat) :
    (interrupt s now).1.interrupt_cause = s.interrupt_cause := by
  unfold interrupt
  split
  · rfl
  · rcases h : s.interrupt_mitigation with _ | m
    · dsimp only
      rcases hIR : interruptRearm s now with ⟨s2, evs2⟩
      have := interruptRearm_cause s now
      rw [hIR] at this
      exact this
    · dsimp only
      split
      · split
        · rfl
        · rfl
      · rcases hIR : interruptRearm { s with interrupt_mitigation := none } now
          with ⟨s2, evs2⟩
        have := interruptRearm_cause { s with interrupt_mitigation := none } now
        rw [hIR] at this
        exact this

/-- C8: ICR (0xC0) and ICS (0xC8) semantics.  A 4-byte ICR read returns the
cause bits then clears them all; an ICS read returns them without clearing;
an ICR write clears exactly the written cause bits (bit-AND-NOT over the
emulated causes) and an ICS write ORs the written bits into the emulated
causes; both writes are followed by re-evaluating interrupt(). -/
theorem icr_ics_register_semantics (s : IntrState) (v now : Nat)
    (hinv : s.interrupt_cause &&& modeledCauses = s.interrupt_cause) :
    icr_ics_access s false false 0 now =
      (s.interrupt_cause, { s with interrupt_cause := 0 }, []) ∧
    icr_ics_access s true false 0 now = (s.interrupt_cause, s, []) ∧
    (∀ i, ((icr_ics_access s false true v now).2.1.interrupt_cause).testBit i =
      (s.interrupt_cause.testBit i && ! v.testBit i)) ∧
    (∀ i, Nat.testBit modeledCauses i = true →
      ((icr_ics_access s true true v now).2.1.interrupt_cause).testBit i =
      (s.interrupt_cause.testBit i || v.testBit i)) ∧
    (icr_ics_access s false true v now).2 =
      interrupt { s with interrupt_cause := modifyCauses s.interrupt_cause (v &&& modeledCauses) true } now ∧
    (icr_ics_access s true true v now).2 =
      interrupt { s with interrupt_cause := modifyCauses s.interrupt_cause (v &&& modeledCauses) false } now := by
  have hwrite : ∀ ics : Bool,
      icr_ics_access s ics true v now =
        (0, interrupt { s with interrupt_cause := modifyCauses s.interrupt_cause (v &&& modeledCauses) (¬ ics) } now) := by
    intro ics
    unfold icr_ics_access
    rw [if_neg (by simp)]
  refine ⟨?_, ?_, ?_, ?_, ?_, ?_⟩
  · unfold icr_ics_access
    rw [if_pos (by simp), if_neg (by simp)]
  · unfold icr_ics_access
    rw [if_pos (by simp), if_pos rfl]
  · intro i
    rw [hwrite false]
    dsimp only
    rw [interrupt_cause_preserved]
    exact modifyCauses_clear_testBit s.interrupt_cause v hinv i
  · intro i h663
    rw [hwrite true]
    dsimp only
    rw [interrupt_cause_preserved]
    exact modifyCauses_set_testBit s.interrupt_cause v i h663
  · rw [hwrite false]
    exact rfl
  · rw [hwrite true]
    exact rfl

/-- Witness for C8: at a state with all emulated causes set, an ICR read
returns them and clears the register. -/
theorem icr_ics_register_semantics_witness :
    intrC4.interrupt_cause &&& modeledCauses = intrC4.interrupt_cause ∧
    icr_ics_access intrC4 false false 0 7 =
      (intrC4.interrupt_cause, { intrC4 with interrupt_cause := 0 }, []) :=
  ⟨by decide, (icr_ics_register_semantics intrC4 5 7 (by decide)).1⟩

/-! Receive pipeline lemmas (C3). -/

theorem writeBytes_in (m : Nat → Nat) (a : Nat) (bs : List Nat) (p : Nat)
    (h1 : a ≤ p) (h2 : p < a + bs.length) :
    writeBytes m a bs p = getB bs (p - a) := by
  unfold writeBytes
  rw [if_pos ⟨h1, h2⟩]

theorem writeBytes_out (m : Nat → Nat) (a : Nat) (bs : List Nat) (p : Nat)
    (h : p < a ∨ a + bs.length ≤ p) :
    writeBytes m a bs p = m p := by
  unfold writeBytes
  rw [if_neg (by omega)]

theorem length_encodeRxDesc (d : ReceiveDescriptor) : (encodeRxDesc d).length = 16 :=
  rfl

theorem readBytes_writeBytes_eq (m : Nat → Nat) (a : Nat) (bs : List Nat) (n : Nat)
    (h : bs.length = n) :
    readBytes (writeBytes m a bs) a n = bs.map (fun b => b % 256) := by
  unfold readBytes
  apply List.ext_getElem?
  intro j
  rw [List.getElem?_map, List.getElem?_map]
  by_cases hj : j < n
  · rw [List.getElem?_range hj, List.getElem?_eq_getElem (by omega)]
    show some (writeBytes m a bs (a + j) % 256) = some (bs[j] % 256)
    rw [writeBytes_in m a bs (a + j) (by omega) (by omega)]
    have hg : getB bs (a + j - a) = bs[j] := by
      unfold getB
      rw [List.getD_eq_getElem?_getD, show a + j - a = j by omega,
        List.getElem?_eq_getElem (by omega)]
      rfl
    rw [hg]
  · rw [List.getElem?_eq_none (by (try simp only [List.length_range]); omega),
      List.getElem?_eq_none (by omega)]
    rfl

theorem encodeRxDesc_mod (d : ReceiveDescriptor) :
    (encodeRxDesc d).map (fun b => b % 256) = encodeRxDesc d := by
  obtain ⟨buffer, length, dd, eop⟩ := d
  cases dd <;> cases eop <;> simp [encodeRxDesc, Nat.mod_mod_of_dvd]

theorem decodeRxDesc_encode (d : ReceiveDescriptor) (h : d.length < 65536) :
    (decodeRxDesc (encodeRxDesc d)).length = d.length ∧
    (decodeRxDesc (encodeRxDesc d)).status_dd = d.status_dd ∧
    (decodeRxDesc (encodeRxDesc d)).status_eop = d.status_eop := by
  obtain ⟨buffer, len, dd, eop⟩ := d
  dsimp only at h
  refine ⟨?_, ?_, ?_⟩
  · show getB (encodeRxDesc ⟨buffer, len, dd, eop⟩) 8 % 256 +
      256 * (getB (encodeRxDesc ⟨buffer, len, dd, eop⟩) 9 % 256) = len
    have h8 : getB (encodeRxDesc ⟨buffer, len, dd, eop⟩) 8 = len % 256 := rfl
    have h9 : getB (encodeRxDesc ⟨buffer, len, dd, eop⟩) 9 = len / 256 % 256 := rfl
    rw [h8, h9]
    rw [Nat.mod_mod_of_dvd _ dvd_rfl, Nat.mod_mod_of_dvd _ dvd_rfl]
    omega
  · show Nat.testBit (getB (encodeRxDesc ⟨buffer, len, dd, eop⟩) 12) 0 = dd
    have h12 : getB (encodeRxDesc ⟨buffer, len, dd, eop⟩) 12 =
        (if dd then 1 else 0) + (if eop then 2 else 0) := rfl
    rw [h12]
    cases dd <;> cases eop <;> rfl
  · show Nat.testBit (getB (encodeRxDesc ⟨buffer, len, dd, eop⟩) 12) 1 = eop
    have h12 : getB (encodeRxDesc ⟨buffer, len, dd, eop⟩) 12 =
        (if dd then 1 else 0) + (if eop then 2 else 0) := rfl
    rw [h12]
    cases dd <;> cases eop <;> rfl

theorem update_rx_throttling_preserves (s : RxState) :
    (update_rx_throttling s).mem = s.mem ∧
    (update_rx_throttling s).rx_ring = s.rx_ring ∧
    (update_rx_throttling s).rd_h = s.rd_h ∧
    (update_rx_throttling s).intr = s.intr := by
  obtain ⟨mem, rring, rctl, rdh, rstate, intr⟩ := s
  unfold update_rx_throttling
  rcases rring with _ | r
  · exact ⟨rfl, rfl, rfl, rfl⟩
  · dsimp only
    split
    · exact ⟨rfl, rfl, rfl, rfl⟩
    · split
      · exact ⟨rfl, rfl, rfl, rfl⟩
      · exact ⟨rfl, rfl, rfl, rfl⟩

/-- C3: a successful receive(frame) writes the frame to the head
descriptor's buffer, writes the descriptor back with DD = EOP = 1 and
length = len(frame) + 4 when RCTL.SECRC is clear (len(frame) when SECRC is
set), and advances RDH to (old head + 1) mod ring length. -/
theorem receive_success_postconditions (s : RxState) (frame : List Nat) (now : Nat)
    (r : DescRing) (hr : s.rx_ring = some r)
    (hframe : ¬ frame.length = 0)
    (hready : s.receive_state = ReceiveState.Online)
    (hne : ¬ r.head = r.tail)
    (hbuf : ¬ (decodeRxDesc (readBytes s.mem (r.ring_address + r.head * 16) 16)).buffer = 0)
    (hsize : frame.length + (if s.rctl.SECRC then 0 else 4) ≤ s.rctl.get_buffer_size)
    (hlen16 : frame.length + 4 < 65536)
    (hring16 : r.length ≤ 65536)
    (hlenpos : 0 < r.length)
    (hdisj : ∀ j, j < frame.length →
      (decodeRxDesc (readBytes s.mem (r.ring_address + r.head * 16) 16)).buffer + j < r.ring_address + r.head * 16 ∨
      r.ring_address + r.head * 16 + 16 ≤ (decodeRxDesc (readBytes s.mem (r.ring_address + r.head * 16) 16)).buffer + j) :
    ∃ s2 evs, receive s frame now = Except.ok (s2, evs) ∧
      s2.rd_h = (r.head + 1) % r.length ∧
      (∃ r2, s2.rx_ring = some r2 ∧ r2.head = (r.head + 1) % r.length) ∧
      (decodeRxDesc (readBytes s2.mem (r.ring_address + r.head * 16) 16)).length =
        frame.length + (if s.rctl.SECRC then 0 else 4) ∧
      (decodeRxDesc (readBytes s2.mem (r.ring_address + r.head * 16) 16)).status_dd = true ∧
      (decodeRxDesc (readBytes s2.mem (r.ring_address + r.head * 16) 16)).status_eop = true ∧
      (∀ j, j < frame.length →
        s2.mem ((decodeRxDesc (readBytes s.mem (r.ring_address + r.head * 16) 16)).buffer + j) =
          getB frame j) := by
  have hprev := update_rx_throttling_preserves { s with
    mem := writeBytes
      (writeBytes s.mem (decodeRxDesc (readBytes s.mem (r.ring_address + r.head * 16) 16)).buffer frame)
      (r.ring_address + r.head * 16)
      (encodeRxDesc { decodeRxDesc (readBytes s.mem (r.ring_address + r.head * 16) 16) with
        length := (frame.length + (if s.rctl.SECRC then 0 else 4)) % 65536
        status_eop := true
        status_dd := true })
    rx_ring := some { r with head := (r.head + 1) % r.length }
    rd_h := ((r.head + 1) % r.length) % 65536 }
  unfold receive
  rw [if_neg hframe, if_neg (by simp [hready, ReceiveState.is_ready]), hr]
  dsimp only
  rw [if_neg hne]
  rw [if_neg (by omega), if_neg hbuf]
  refine ⟨_, _, rfl, ?_, ?_, ?_, ?_, ?_, ?_⟩
  · dsimp only
    rw [hprev.2.2.1]
    dsimp only
    exact Nat.mod_eq_of_lt (lt_of_lt_of_le (Nat.mod_lt _ hlenpos) hring16)
  · dsimp only
    rw [hprev.2.1]
    exact ⟨_, rfl, rfl⟩
  · dsimp only
    rw [hprev.1]
    dsimp only
    rw [readBytes_writeBytes_eq _ _ _ 16 (length_encodeRxDesc _), encodeRxDesc_mod]
    rw [(decodeRxDesc_encode _ (by dsimp only; exact Nat.mod_lt _ (by omega))).1]
    dsimp only
    exact Nat.mod_eq_of_lt (by split <;> omega)
  · dsimp only
    rw [hprev.1]
    dsimp only
    rw [readBytes_writeBytes_eq _ _ _ 16 (length_encodeRxDesc _), encodeRxDesc_mod]
    exact (decodeRxDesc_encode _ (by dsimp only; exact Nat.mod_lt _ (by omega))).2.1
  · dsimp only
    rw [hprev.1]
    dsimp only
    rw [readBytes_writeBytes_eq _ _ _ 16 (length_encodeRxDesc _), encodeRxDesc_mod]
    exact (decodeRxDesc_encode _ (by dsimp only; exact Nat.mod_lt _ (by omega))).2.2
  · intro j hj
    dsimp only
    rw [hprev.1]
    dsimp only
    rw [writeBytes_out _ _ _ _ (by
      rw [length_encodeRxDesc]
      exact hdisj j hj)]
    rw [writeBytes_in _ _ _ _ (by omega) (by omega)]
    rw [show (decodeRxDesc (readBytes s.mem (r.ring_address + r.head * 16) 16)).buffer + j -
      (decodeRxDesc (readBytes s.mem (r.ring_address + r.head * 16) 16)).buffer = j from by omega]

/-- Witness for C3: a 2-byte frame received at ring slot 0 (buffer 512,
SECRC clear) lands in guest memory with a written-back length of 6 and
DD = EOP set, and RDH moves to 1. -/
theorem receive_success_postconditions_witness :
    ¬ ([170, 171] : List Nat).length = 0 ∧
    rxC.receive_state = ReceiveState.Online ∧
    (∃ s2 evs, receive rxC [170, 171] 0 = Except.ok (s2, evs) ∧
      s2.rd_h = 1 ∧
      (∃ r2, s2.rx_ring = some r2 ∧ r2.head = 1) ∧
      (decodeRxDesc (readBytes s2.mem 0 16)).length = 6 ∧
      (decodeRxDesc (readBytes s2.mem 0 16)).status_dd = true ∧
      (decodeRxDesc (readBytes s2.mem 0 16)).status_eop = true ∧
      (∀ j, j < ([170, 171] : List Nat).length →
        s2.mem ((decodeRxDesc (readBytes rxC.mem 0 16)).buffer + j) =
          getB [170, 171] j)) := by
  refine ⟨by decide, rfl, ?_⟩
  exact receive_success_postconditions rxC [170, 171] 0 ⟨0, 8, 0, 7⟩ rfl (by decide)
    rfl (by decide) (by decide) (by decide) (by decide) (by decide) (by decide)
    (by
      intro j hj
      right
      dsimp only
      have hb : (decodeRxDesc (readBytes rxC.mem (0 + 0 * 16) 16)).buffer = 512 := by
        decide
      omega)

/-! Transmit drain lemmas (C5, C6, C10). -/

theorem hardware_owned_eq (r : DescRing) (hh : r.head < r.length)
    (ht : r.tail < r.length) :
    r.hardware_owned_descriptors =
      if r.head ≤ r.tail then r.tail - r.head else r.tail + r.length - r.head := by
  unfold DescRing.hardware_owned_descriptors
  by_cases hc : r.head ≤ r.tail
  · rw [if_pos hc, show r.tail + r.length - r.head = r.length + (r.tail - r.head) from
      by omega, Nat.add_mod_left, Nat.mod_eq_of_lt (by omega)]
  · rw [if_neg hc, Nat.mod_eq_of_lt (by omega)]

theorem advance_head_fields (r : DescRing) :
    r.advance_head.ring_address = r.ring_address ∧
    r.advance_head.length = r.length ∧
    r.advance_head.tail = r.tail ∧
    r.advance_head.head = (r.head + 1) % r.length :=
  ⟨rfl, rfl, rfl, rfl⟩

theorem advance_head_lt (r : DescRing) (hl : 0 < r.length) :
    r.advance_head.head < r.length :=
  Nat.mod_lt _ hl

theorem hardware_owned_advance (r : DescRing) (hh : r.head < r.length)
    (ht : r.tail < r.length) (hne : r.head ≠ r.tail) :
    r.advance_head.hardware_owned_descriptors + 1 = r.hardware_owned_descriptors := by
  have h1 := hardware_owned_eq r hh ht
  have h2 := hardware_owned_eq r.advance_head
    (advance_head_lt r (by omega)) (by show r.tail < r.length; exact ht)
  have h3 : r.advance_head.head = (r.head + 1) % r.length := rfl
  have h4 : r.advance_head.tail = r.tail := rfl
  have h5 : r.advance_head.length = r.length := rfl
  rw [h3, h4, h5] at h2
  by_cases hwrap : r.head + 1 = r.length
  · rw [hwrap, Nat.mod_self] at h2
    rw [h1, h2]
    rw [if_pos (by omega)]
    by_cases hc : r.head ≤ r.tail <;> [rw [if_pos hc]; rw [if_neg hc]] <;> omega
  · rw [Nat.mod_eq_of_lt (by omega)] at h2
    rw [h1, h2]
    by_cases hc1 : r.head + 1 ≤ r.tail
    · rw [if_pos hc1, if_pos (by omega)]
      omega
    · rw [if_neg hc1]
      by_cases hc2 : r.head ≤ r.tail <;> [rw [if_pos hc2]; rw [if_neg hc2]] <;> omega

theorem hasWriteBack_append (a b : List HostEvent) :
    hasWriteBack (a ++ b) = (hasWriteBack a || hasWriteBack b) := by
  unfold hasWriteBack
  exact List.any_append

theorem sendPackets_no_writeBack (host : List Nat → Except String Nat) :
    ∀ ps evs, sendPackets host ps = Except.ok evs → hasWriteBack evs = false := by
  intro ps
  induction ps with
  | nil =>
    intro evs h
    unfold sendPackets at h
    cases h
    rfl
  | cons p rest ih =>
    intro evs h
    unfold sendPackets at h
    split at h
    · cases h
    · split at h
      · rcases hrest : sendPackets host rest with e | evs2
        · rw [hrest] at h
          cases h
        · rw [hrest] at h
          simp only [Except.map] at h
          cases h
          rw [show hasWriteBack (HostEvent.send p :: evs2) = hasWriteBack evs2 from rfl]
          exact ih evs2 hrest
      · cases h

theorem mitigate_no_writeBack (s : IntrState) (now fm : Nat) :
    hasWriteBack (mitigate_interrupts s now fm).2 = false := by
  unfold mitigate_interrupts
  rcases s.interrupt_mitigation with _ | m
  · rfl
  · dsimp only
    split
    · rfl
    · split <;> rfl

theorem interruptRearm_no_writeBack (s : IntrState) (now : Nat) :
    hasWriteBack (interruptRearm s now).2 = false := by
  unfold interruptRearm
  split
  · split
    · rfl
    · exact mitigate_no_writeBack s now (s.interrupt_throttling * 256)
  · rfl

theorem interrupt_no_writeBack (s : IntrState) (now : Nat) :
    hasWriteBack (interrupt s now).2 = false := by
  unfold interrupt
  split
  · rfl
  · rcases h : s.interrupt_mitigation with _ | m
    · dsimp only
      rcases hIR : interruptRearm s now with ⟨s2, evs2⟩
      have hwb := interruptRearm_no_writeBack s now
      rw [hIR] at hwb
      exact hwb
    · dsimp only
      split
      · split
        · rfl
        · rfl
      · rcases hIR : interruptRearm { s with interrupt_mitigation := none } now
          with ⟨s2, evs2⟩
        have hwb := interruptRearm_no_writeBack { s with interrupt_mitigation := none } now
        rw [hIR] at hwb
        rw [hasWriteBack_append, hwb]
        split <;> rfl

theorem seqStep_no_writeBack (host : List Nat → Except String Nat)
    (seq1 seq2 : TransmitDescriptorSequence) (evs2 : List HostEvent)
    (h : (if seq1.done then
        seq1.finalize.bind (fun packets =>
          (sendPackets host packets).map
            (fun evs => (TransmitDescriptorSequence.empty, evs)))
      else Except.ok (seq1, [])) = Except.ok (seq2, evs2)) :
    hasWriteBack evs2 = false := by
  split at h
  · rcases hf : seq1.finalize with e | packets
    · rw [hf] at h
      simp only [Except.bind] at h
      exact Except.noConfusion h
    · rw [hf] at h
      simp only [Except.bind] at h
      rcases hs : sendPackets host packets with e | evsS
      · rw [hs] at h
        simp only [Except.map] at h
        exact Except.noConfusion h
      · rw [hs] at h
        simp only [Except.map] at h
        cases h
        exact sendPackets_no_writeBack host packets _ hs
  · cases h
    rfl

theorem txLoop_report (host : List Nat → Except String Nat)
    (descs : Nat → Except String TransmitDescriptor) (bufMem : Nat → Nat) :
    ∀ fuel st st2 evs, txLoop host descs bufMem fuel st = Except.ok (st2, evs) →
      st2.report_status = (st.report_status || hasWriteBack evs) := by
  intro fuel
  induction fuel with
  | zero =>
    intro st st2 evs h
    unfold txLoop at h
    split at h
    · cases h
      rw [show hasWriteBack [] = false from rfl, Bool.or_false]
    · exact Except.noConfusion h
  | succ fuel ih =>
    intro st st2 evs h
    unfold txLoop at h
    split at h
    · cases h
      rw [show hasWriteBack [] = false from rfl, Bool.or_false]
    · split at h
      · exact Except.noConfusion h
      · split at h
        · exact Except.noConfusion h
        · rename_i tdesc hdesc xadd seq1 msg hadd
          exact ih { ring := st.ring.advance_head, seq := seq1, report_status := st.report_status, td_h := st.td_h } st2 evs h
        · rename_i tdesc hdesc xadd seq1 hadd
          dsimp only at h
          rcases hstep : (if seq1.done = true then
              seq1.finalize.bind (fun packets =>
                (sendPackets host packets).map
                  (fun evs2 => (TransmitDescriptorSequence.empty, evs2)))
            else Except.ok (seq1, [])) with e | ⟨seq2, evs2⟩
          · rw [hstep] at h
            exact Except.noConfusion h
          · rw [hstep] at h
            dsimp only at h
            rcases hrec : txLoop host descs bufMem fuel
                { ring := st.ring.advance_head, seq := seq2,
                  report_status := st.report_status || tdesc.report_status,
                  td_h := st.ring.advance_head.head % 65536 } with e | ⟨st2i, evs3⟩
            · rw [hrec] at h
              exact Except.noConfusion h
            · rw [hrec] at h
              dsimp only at h
              cases h
              have hrep := ih _ _ _ hrec
              rw [hrep]
              have hwb2 : hasWriteBack evs2 = false :=
                seqStep_no_writeBack host seq1 seq2 evs2 hstep
              rw [hasWriteBack_append, hasWriteBack_append, hwb2]
              by_cases hrs : tdesc.report_status = true
              · simp [hrs, hasWriteBack, Bool.or_assoc]
              · have hrs2 : tdesc.report_status = false := by
                  cases hx : tdesc.report_status
                  · rfl
                  · exact absurd hx hrs
                simp [hrs2, hasWriteBack, Bool.or_assoc]

theorem add_descriptor_legacy (seq : TransmitDescriptorSequence)
    (d : TransmitDescriptorLegacy) (bufMem : Nat → Nat)
    (hctx : seq.tcp_context = none) (hdone : seq.done = false)
    (hic : d.cmd_ic = false) :
    seq.add_descriptor (.legacy d) bufMem =
      if d.buffer = 0 then
        AddResult.recoverable seq "Transmit descriptor buffer address is null"
      else
        AddResult.ok { seq with data := seq.data ++ readBytes bufMem d.buffer d.length, done := d.cmd_eop } := by
  unfold TransmitDescriptorSequence.add_descriptor
  rw [if_neg (by simp [hdone])]
  dsimp only
  rw [if_neg (by rw [hctx]; simp), if_neg (by simp [hic])]

theorem seqStep_legacy_done (host : List Nat → Except String Nat)
    (hhost : ∀ p, host p = Except.ok p.length)
    (seq1 : TransmitDescriptorSequence) (hctx : seq1.tcp_context = none) :
    seq1.finalize.bind (fun packets =>
        (sendPackets host packets).map
          (fun evs => (TransmitDescriptorSequence.empty, evs))) =
      Except.ok (TransmitDescriptorSequence.empty, [HostEvent.send seq1.data]) := by
  unfold TransmitDescriptorSequence.finalize
  rw [hctx]
  dsimp only [Except.bind]
  unfold sendPackets
  rw [hhost seq1.data]
  dsimp only
  rw [if_pos rfl]
  rw [show sendPackets host ([] : List (List Nat)) = Except.ok [] from rfl]
  rfl

theorem txLoop_legacy_drain (host : List Nat → Except String Nat)
    (descs : Nat → Except String TransmitDescriptor) (bufMem : Nat → Nat)
    (hhost : ∀ p, host p = Except.ok p.length)
    (hdescs : ∀ i, ∃ d, descs i = Except.ok (TransmitDescriptor.legacy d) ∧ d.cmd_ic = false) :
    ∀ fuel st, st.ring.head < st.ring.length → st.ring.tail < st.ring.length →
      st.ring.hardware_owned_descriptors ≤ fuel →
      st.seq.tcp_context = none → st.seq.done = false →
      ∃ st2 evs, txLoop host descs bufMem fuel st = Except.ok (st2, evs) ∧
        st2.ring = { st.ring with head := st.ring.tail } := by
  intro fuel
  induction fuel with
  | zero =>
    intro st hh ht hfuel hctx hdone
    have he : st.ring.head = st.ring.tail := by
      have hda := hardware_owned_eq st.ring hh ht
      by_cases hc : st.ring.head ≤ st.ring.tail
      · rw [if_pos hc] at hda
        omega
      · rw [if_neg hc] at hda
        omega
    refine ⟨st, [], by unfold txLoop; rw [if_pos he], ?_⟩
    conv_rhs => rw [← he]
  | succ fuel ih =>
    intro st hh ht hfuel hctx hdone
    by_cases he : st.ring.head = st.ring.tail
    · refine ⟨st, [], by unfold txLoop; rw [if_pos he], ?_⟩
      conv_rhs => rw [← he]
    · obtain ⟨d, hd, hic⟩ := hdescs st.ring.head
      have hlpos : 0 < st.ring.length := by omega
      have hh2 : st.ring.advance_head.head < st.ring.length := advance_head_lt st.ring hlpos
      have hfuel2 : st.ring.advance_head.hardware_owned_descriptors ≤ fuel := by
        have := hardware_owned_advance st.ring hh ht he
        omega
      unfold txLoop
      rw [if_neg he, hd]
      dsimp only
      rw [add_descriptor_legacy st.seq d bufMem hctx hdone hic]
      by_cases hb : d.buffer = 0
      · rw [if_pos hb]
        dsimp only
        obtain ⟨st2, evs, hrun, hring⟩ :=
          ih { st with ring := st.ring.advance_head, seq := st.seq } hh2 ht hfuel2 hctx hdone
        exact ⟨st2, evs, hrun, hring⟩
      · rw [if_neg hb]
        dsimp only
        by_cases heop : d.cmd_eop = true
        · rw [heop, if_pos rfl]
          rw [seqStep_legacy_done host hhost _ (by exact hctx)]
          dsimp only
          obtain ⟨st2, evs, hrun, hring⟩ :=
            ih { ring := st.ring.advance_head, seq := TransmitDescriptorSequence.empty, report_status := st.report_status || (TransmitDescriptor.legacy d).report_status, td_h := st.ring.advance_head.head % 65536 } hh2 ht hfuel2 rfl rfl
          rw [hrun]
          exact ⟨st2, _, rfl, hring⟩
        · have heop2 : d.cmd_eop = false := by
            cases hx : d.cmd_eop
            · rfl
            · exact absurd hx heop
          rw [heop2]
          rw [if_neg (by simp)]
          dsimp only
          obtain ⟨st2, evs, hrun, hring⟩ :=
            ih { ring := st.ring.advance_head, seq := { st.seq with data := st.seq.data ++ readBytes bufMem d.buffer d.length, done := false }, report_status := st.report_status || (TransmitDescriptor.legacy d).report_status, td_h := st.ring.advance_head.head % 65536 } hh2 ht hfuel2 (by exact hctx) rfl
          rw [hrun]
          exact ⟨st2, _, rfl, hring⟩

theorem txLoop_clean_drain (host : List Nat → Except String Nat)
    (descs : Nat → Except String TransmitDescriptor) (bufMem : Nat → Nat)
    (hhost : ∀ p, host p = Except.ok p.length)
    (hdescs : ∀ i, ∃ d, descs i = Except.ok (TransmitDescriptor.legacy d) ∧ d.cmd_ic = false ∧ ¬ d.buffer = 0) :
    ∀ fuel st, st.ring.head < st.ring.length → st.ring.tail < st.ring.length →
      st.ring.hardware_owned_descriptors ≤ fuel →
      st.seq.tcp_context = none → st.seq.done = false →
      ∃ st2 evs, txLoop host descs bufMem fuel st = Except.ok (st2, evs) ∧
        st2.ring = { st.ring with head := st.ring.tail } ∧
        st2.td_h = (if st.ring.head = st.ring.tail then st.td_h else st.ring.tail % 65536) := by
  intro fuel
  induction fuel with
  | zero =>
    intro st hh ht hfuel hctx hdone
    have he : st.ring.head = st.ring.tail := by
      have hda := hardware_owned_eq st.ring hh ht
      by_cases hc : st.ring.head ≤ st.ring.tail
      · rw [if_pos hc] at hda
        omega
      · rw [if_neg hc] at hda
        omega
    refine ⟨st, [], by unfold txLoop; rw [if_pos he], ?_, by rw [if_pos he]⟩
    conv_rhs => rw [← he]
  | succ fuel ih =>
    intro st hh ht hfuel hctx hdone
    by_cases he : st.ring.head = st.ring.tail
    · refine ⟨st, [], by unfold txLoop; rw [if_pos he], ?_, by rw [if_pos he]⟩
      conv_rhs => rw [← he]
    · obtain ⟨d, hd, hic, hbne⟩ := hdescs st.ring.head
      have hlpos : 0 < st.ring.length := by omega
      have hh2 : st.ring.advance_head.head < st.ring.length := advance_head_lt st.ring hlpos
      have hfuel2 : st.ring.advance_head.hardware_owned_descriptors ≤ fuel := by
        have := hardware_owned_advance st.ring hh ht he
        omega
      unfold txLoop
      rw [if_neg he, hd]
      dsimp only
      rw [add_descriptor_legacy st.seq d bufMem hctx hdone hic, if_neg hbne]
      dsimp only
      by_cases heop : d.cmd_eop = true
      · rw [heop, if_pos rfl]
        rw [seqStep_legacy_done host hhost _ (by exact hctx)]
        dsimp only
        obtain ⟨st2, evs, hrun, hring, htd⟩ :=
          ih { ring := st.ring.advance_head, seq := TransmitDescriptorSequence.empty, report_status := st.report_status || (TransmitDescriptor.legacy d).report_status, td_h := st.ring.advance_head.head % 65536 } hh2 ht hfuel2 rfl rfl
        rw [hrun]
        refine ⟨st2, _, rfl, hring, ?_⟩
        rw [if_neg he]
        dsimp only at htd
        rw [show st.ring.advance_head.tail = st.ring.tail from rfl] at htd
        by_cases hlast : st.ring.advance_head.head = st.ring.tail
        · rw [if_pos hlast] at htd
          rw [htd, hlast]
        · rw [if_neg hlast] at htd
          exact htd
      · have heop2 : d.cmd_eop = false := by
          cases hx : d.cmd_eop
          · rfl
          · exact absurd hx heop
        rw [heop2]
        rw [if_neg (by simp)]
        dsimp only
        obtain ⟨st2, evs, hrun, hring, htd⟩ :=
          ih { ring := st.ring.advance_head, seq := { st.seq with data := st.seq.data ++ readBytes bufMem d.buffer d.length, done := false }, report_status := st.report_status || (TransmitDescriptor.legacy d).report_status, td_h := st.ring.advance_head.head % 65536 } hh2 ht hfuel2 (by exact hctx) rfl
        rw [hrun]
        refine ⟨st2, _, rfl, hring, ?_⟩
        rw [if_neg he]
        dsimp only at htd
        rw [show st.ring.advance_head.tail = st.ring.tail from rfl] at htd
        by_cases hlast : st.ring.advance_head.head = st.ring.tail
        · rw [if_pos hlast] at htd
          rw [htd, hlast]
        · rw [if_neg hlast] at htd
          exact htd

/-- C5 (amended): recoverable per-descriptor errors inside the TX drain
(e.g. a null transmit buffer) are skipped with the head advanced past the
offending descriptor, and the drain always completes, emptying the ring;
however a failure of host send (like a failing descriptor read or
finalize) aborts the drain via unwrap rather than being skipped. -/
theorem tx_drain_skips_bad_descriptors (host : List Nat → Except String Nat)
    (descs : Nat → Except String TransmitDescriptor) (bufMem : Nat → Nat)
    (s : TxState) (now : Nat) (r : DescRing) (hr : s.tx_ring = some r)
    (hh : r.head < r.length) (ht : s.td_t < r.length)
    (hhost : ∀ p, host p = Except.ok p.length)
    (hdescs : ∀ i, ∃ d, descs i = Except.ok (TransmitDescriptor.legacy d) ∧ d.cmd_ic = false) :
    ∃ s2 evs, process_tx_ring host descs bufMem s now = Except.ok (s2, evs) ∧
      s2.tx_ring = some { r with head := s.td_t, tail := s.td_t } := by
  unfold process_tx_ring
  rw [hr]
  dsimp only
  have hwlt : ({ r with tail := s.td_t } : DescRing).hardware_owned_descriptors < r.length := by
    unfold DescRing.hardware_owned_descriptors
    dsimp only
    exact Nat.mod_lt _ (by omega)
  obtain ⟨st2, evs, hrun, hring⟩ := txLoop_legacy_drain host descs bufMem hhost hdescs
    (r.length + 1)
    { ring := { r with tail := s.td_t }, seq := .empty, report_status := false, td_h := s.td_h }
    (by exact hh) (by exact ht) (by dsimp only; omega) rfl rfl
  rw [hrun]
  refine ⟨_, _, rfl, ?_⟩
  dsimp only
  rw [hring]

/-- Counterexample for C5: a failing host.send is not skipped; the drain
aborts (panics via unwrap in the source) on an otherwise well-formed
legacy descriptor. -/
theorem tx_drain_send_failure_panics :
    process_tx_ring hostFail descsLegacy bufMemC txC 0 = Except.error "send failed" := by
  rfl

/-- Witness for C5 (amended): a drain over a null-buffer descriptor at
slot 0 still completes and empties the ring. -/
theorem tx_drain_skips_bad_descriptors_witness :
    txC.tx_ring = some ⟨0, 8, 0, 0⟩ ∧ (0 : Nat) < 8 ∧
    (∃ s2 evs, process_tx_ring hostOk descsMixed bufMemC txC 0 = Except.ok (s2, evs) ∧
      s2.tx_ring = some ⟨0, 8, 1, 1⟩) := by
  refine ⟨rfl, by decide, ?_⟩
  exact tx_drain_skips_bad_descriptors hostOk descsMixed bufMemC txC 0 ⟨0, 8, 0, 0⟩
    rfl (by decide) (by decide) (fun p => rfl) (fun i => ⟨_, rfl, rfl⟩)

/-- C6 (amended): after a TDT-triggered drain with a TX ring present, if
some processed descriptor had report-status set (a write-back occurred)
both TXDW (bit 0) and TXQE (bit 1) of the cause register are set; if none
had it, the drain sets TXQE alone and TXDW keeps exactly its prior value
(so TXDW can remain set from before, which refutes the original "only
TXQE is set" reading). -/
theorem tx_drain_report_causes (host : List Nat → Except String Nat)
    (descs : Nat → Except String TransmitDescriptor) (bufMem : Nat → Nat)
    (s : TxState) (now : Nat) (r : DescRing) (hr : s.tx_ring = some r)
    (s2 : TxState) (evs : List HostEvent)
    (hrun : process_tx_ring host descs bufMem s now = Except.ok (s2, evs)) :
    (hasWriteBack evs = true →
      s2.intr.interrupt_cause.testBit 0 = true ∧
      s2.intr.interrupt_cause.testBit 1 = true) ∧
    (hasWriteBack evs = false →
      s2.intr.interrupt_cause.testBit 1 = true ∧
      s2.intr.interrupt_cause.testBit 0 = s.intr.interrupt_cause.testBit 0) := by
  unfold process_tx_ring at hrun
  rw [hr] at hrun
  dsimp only at hrun
  rcases hloop : txLoop host descs bufMem (r.length + 1)
      { ring := { r with tail := s.td_t }, seq := .empty, report_status := false, td_h := s.td_h }
    with e | ⟨stF, evsL⟩
  · rw [hloop] at hrun
    exact Except.noConfusion hrun
  · rw [hloop] at hrun
    dsimp only at hrun
    cases hrun
    have hrep := txLoop_report host descs bufMem _ _ _ _ hloop
    rw [show (false || hasWriteBack evsL) = hasWriteBack evsL from by simp] at hrep
    have hIwb := interrupt_no_writeBack { s.intr with interrupt_cause := s.intr.interrupt_cause ||| (if stF.report_status then 3 else 2) } now
    have hcause : ({ s with tx_ring := some stF.ring, td_h := stF.td_h, intr := (interrupt { s.intr with interrupt_cause := s.intr.interrupt_cause ||| (if stF.report_status then 3 else 2) } now).1 } : TxState).intr.interrupt_cause = s.intr.interrupt_cause ||| (if stF.report_status then 3 else 2) := by
      dsimp only
      rw [interrupt_cause_preserved]
    constructor
    · intro hwb
      rw [hasWriteBack_append, hIwb, Bool.or_false] at hwb
      rw [hwb] at hrep
      rw [hcause, hrep]
      rw [if_pos rfl]
      constructor
      · rw [Nat.testBit_or, show Nat.testBit 3 0 = true from rfl, Bool.or_true]
      · rw [Nat.testBit_or, show Nat.testBit 3 1 = true from rfl, Bool.or_true]
    · intro hwb
      rw [hasWriteBack_append, hIwb, Bool.or_false] at hwb
      rw [hwb] at hrep
      rw [hcause, hrep]
      rw [if_neg (by simp)]
      constructor
      · rw [Nat.testBit_or, show Nat.testBit 2 1 = true from rfl, Bool.or_true]
      · rw [Nat.testBit_or, show Nat.testBit 2 0 = false from rfl, Bool.or_false]

/-- Counterexample for C6: with TXDW already set before the drain (ICR was
never read) and a drain that observes no RS-marked descriptor, both TXDW
and TXQE are set afterwards, not TXQE alone. -/
theorem tx_drain_txdw_persists :
    (process_tx_ring hostOk descsLegacy bufMemC txC6 0).map
      (fun res => (res.1.intr.interrupt_cause.testBit 0,
        res.1.intr.interrupt_cause.testBit 1, hasWriteBack res.2)) =
      Except.ok (true, true, false) := by
  rfl

/-- Witness for C6 (amended): a drain over one RS-clear legacy descriptor
sets TXQE and leaves TXDW at its prior value. -/
theorem tx_drain_report_causes_witness :
    txC.tx_ring = some ⟨0, 8, 0, 0⟩ ∧
    (∃ s2 evs, process_tx_ring hostOk descsLegacyAll bufMemC txC 0 = Except.ok (s2, evs) ∧
      (hasWriteBack evs = false →
        s2.intr.interrupt_cause.testBit 1 = true ∧
        s2.intr.interrupt_cause.testBit 0 = txC.intr.interrupt_cause.testBit 0)) := by
  refine ⟨rfl, ⟨_, _, rfl, ?_⟩⟩
  exact (tx_drain_report_causes hostOk descsLegacyAll bufMemC txC 0 ⟨0, 8, 0, 0⟩ rfl _ _ rfl).2

/-- C10 (amended): TDH is synchronized with the ring head after every
iteration that feeds its descriptor into the accumulator without error, so
a drain of well-formed legacy descriptors that processes at least one
descriptor ends with TDH = head; an iteration skipped by a per-descriptor
error leaves TDH stale (see the counterexample). -/
theorem tdh_synchronized_clean_drain (host : List Nat → Except String Nat)
    (descs : Nat → Except String TransmitDescriptor) (bufMem : Nat → Nat)
    (s : TxState) (now : Nat) (r : DescRing) (hr : s.tx_ring = some r)
    (hh : r.head < r.length) (ht : s.td_t < r.length) (hne : ¬ r.head = s.td_t)
    (hhost : ∀ p, host p = Except.ok p.length)
    (hdescs : ∀ i, ∃ d, descs i = Except.ok (TransmitDescriptor.legacy d) ∧ d.cmd_ic = false ∧ ¬ d.buffer = 0) :
    ∃ s2 evs, process_tx_ring host descs bufMem s now = Except.ok (s2, evs) ∧
      (∃ r2, s2.tx_ring = some r2 ∧ r2.head = s.td_t ∧ s2.td_h = r2.head % 65536) := by
  unfold process_tx_ring
  rw [hr]
  dsimp only
  have hwlt : ({ r with tail := s.td_t } : DescRing).hardware_owned_descriptors < r.length := by
    unfold DescRing.hardware_owned_descriptors
    dsimp only
    exact Nat.mod_lt _ (by omega)
  obtain ⟨st2, evs, hrun, hring, htd⟩ := txLoop_clean_drain host descs bufMem hhost hdescs
    (r.length + 1)
    { ring := { r with tail := s.td_t }, seq := .empty, report_status := false, td_h := s.td_h }
    (by exact hh) (by exact ht) (by dsimp only; omega) rfl rfl
  rw [hrun]
  refine ⟨_, _, rfl, ⟨st2.ring, rfl, ?_, ?_⟩⟩
  · rw [hring]
  · dsimp only
    rw [hring]
    dsimp only at htd
    rw [if_neg (by exact hne)] at htd
    exact htd

/-- Counterexample for C10: a drain whose only descriptor hits a
recoverable error advances the ring head past it but leaves the TDH
register stale (0 while head is 1). -/
theorem tdh_stale_after_skipped_descriptor :
    (process_tx_ring hostOk descsOrphanData bufMemC txC 0).map
      (fun res => (res.1.td_h, res.1.tx_ring)) =
      Except.ok ((0 : Nat), some (⟨0, 8, 1, 1⟩ : DescRing)) ∧ (0 : Nat) ≠ 1 := by
  exact ⟨rfl, by decide⟩

/-- Witness for C10 (amended): a clean drain of one legacy descriptor ends
with TDH equal to the ring head. -/
theorem tdh_synchronized_clean_drain_witness :
    txC.tx_ring = some ⟨0, 8, 0, 0⟩ ∧ ¬ (0 : Nat) = 1 ∧
    (∃ s2 evs, process_tx_ring hostOk descsLegacyAll bufMemC txC 0 = Except.ok (s2, evs) ∧
      (∃ r2, s2.tx_ring = some r2 ∧ r2.head = txC.td_t ∧ s2.td_h = r2.head % 65536)) := by
  refine ⟨rfl, by decide, ?_⟩
  exact tdh_synchronized_clean_drain hostOk descsLegacyAll bufMemC txC 0 ⟨0, 8, 0, 0⟩
    rfl (by decide) (by decide) (by decide) (fun p => rfl) (fun i => ⟨_, rfl, rfl, by decide⟩)

/-! TSO segmentation lemmas (C1, C2). -/

theorem chunksList_length_aux (n : Nat) (hn : 0 < n) :
    ∀ N, ∀ l : List Nat, l.length ≤ N →
      (chunksList l n).length = (l.length + n - 1) / n := by
  intro N
  induction N with
  | zero =>
    intro l hl
    have he : l = [] := List.eq_nil_of_length_eq_zero (by omega)
    subst he
    unfold chunksList
    rw [dif_pos (Or.inl rfl)]
    rw [show (([] : List Nat).length + n - 1) = n - 1 from by simp]
    rw [Nat.div_eq_of_lt (by omega)]
    rfl
  | succ N ih =>
    intro l hl
    by_cases he : l = []
    · subst he
      unfold chunksList
      rw [dif_pos (Or.inl rfl)]
      rw [show (([] : List Nat).length + n - 1) = n - 1 from by simp]
      rw [Nat.div_eq_of_lt (by omega)]
      rfl
    · have hlen1 : 1 ≤ l.length := by
        cases l
        · exact absurd rfl he
        · simp
      unfold chunksList
      rw [dif_neg (by push_neg; exact ⟨he, by omega⟩)]
      rw [List.length_cons, ih (l.drop n) (by rw [List.length_drop]; omega)]
      rw [List.length_drop]
      by_cases hc : l.length ≤ n
      · rw [show l.length - n = 0 from by omega]
        rw [show 0 + n - 1 = n - 1 from by omega]
        rw [Nat.div_eq_of_lt (by omega)]
        symm
        exact Nat.div_eq_of_lt_le (by omega) (by omega)
      · rw [show l.length - n + n - 1 = l.length - 1 from by omega,
          show l.length + n - 1 = (l.length - 1) + n from by omega,
          Nat.add_div_right _ hn]

theorem chunksList_length_eq (l : List Nat) (n : Nat) (hn : 0 < n) :
    (chunksList l n).length = (l.length + n - 1) / n :=
  chunksList_length_aux n hn l.length l (Nat.le_refl _)

theorem chunksList_getD_aux (n : Nat) (hn : 0 < n) :
    ∀ N, ∀ l : List Nat, ∀ i, l.length ≤ N → i < (chunksList l n).length →
      (chunksList l n).getD i [] = (l.drop (n * i)).take n := by
  intro N
  induction N with
  | zero =>
    intro l i hl hi
    have he : l = [] := List.eq_nil_of_length_eq_zero (by omega)
    subst he
    unfold chunksList at hi
    rw [dif_pos (Or.inl rfl)] at hi
    exact absurd hi (by simp)
  | succ N ih =>
    intro l i hl hi
    by_cases he : l = []
    · subst he
      unfold chunksList at hi
      rw [dif_pos (Or.inl rfl)] at hi
      exact absurd hi (by simp)
    · unfold chunksList at hi ⊢
      rw [dif_neg (by push_neg; exact ⟨he, by omega⟩)] at hi ⊢
      cases i with
      | zero =>
        rw [List.getD_cons_zero, Nat.mul_zero, List.drop_zero]
      | succ i =>
        rw [List.getD_cons_succ]
        rw [List.length_cons] at hi
        rw [ih (l.drop n) i (by rw [List.length_drop]; omega) (by omega)]
        rw [List.drop_drop, show n + n * i = n * (i + 1) from by ring]

theorem length_wrapping_add16 (l : List Nat) (off k : Nat) :
    (wrapping_add_to_u16_be_bytes l off k).length = l.length := by
  unfold wrapping_add_to_u16_be_bytes
  exact length_write_be16 l off _

theorem length_wrapping_add32 (l : List Nat) (off k : Nat) :
    (wrapping_add_to_u32_be_bytes l off k).length = l.length := by
  unfold wrapping_add_to_u32_be_bytes
  exact length_write_be32 l off _

theorem getB_wrapping_add16_ne (l : List Nat) (off k p : Nat)
    (h1 : p ≠ off) (h2 : p ≠ off + 1) :
    getB (wrapping_add_to_u16_be_bytes l off k) p = getB l p := by
  unfold wrapping_add_to_u16_be_bytes
  exact getB_write_be16_ne l off _ p h1 h2

theorem getB_wrapping_add32_ne (l : List Nat) (off k p : Nat)
    (h1 : p ≠ off) (h2 : p ≠ off + 1) (h3 : p ≠ off + 2) (h4 : p ≠ off + 3) :
    getB (wrapping_add_to_u32_be_bytes l off k) p = getB l p := by
  unfold wrapping_add_to_u32_be_bytes
  exact getB_write_be32_ne l off _ p h1 h2 h3 h4

theorem read_wrapping_add16 (l : List Nat) (off k : Nat) (h : off + 1 < l.length) :
    read_be16 (wrapping_add_to_u16_be_bytes l off k) off = (read_be16 l off + k) % 65536 := by
  unfold wrapping_add_to_u16_be_bytes
  exact read_be16_write_be16 l off _ h (Nat.mod_lt _ (by omega))

theorem read_wrapping_add32 (l : List Nat) (off k : Nat) (h : off + 3 < l.length) :
    read_be32 (wrapping_add_to_u32_be_bytes l off k) off = (read_be32 l off + k) % 4294967296 := by
  unfold wrapping_add_to_u32_be_bytes
  exact read_be32_write_be32 l off _ h (Nat.mod_lt _ (by omega))

theorem drop_wrapping_add16_of_lt (l : List Nat) (off k n : Nat) (h : off + 1 < n) :
    (wrapping_add_to_u16_be_bytes l off k).drop n = l.drop n := by
  unfold wrapping_add_to_u16_be_bytes
  exact drop_write_be16_of_lt l off _ n h

theorem drop_wrapping_add32_of_lt (l : List Nat) (off k n : Nat) (h : off + 3 < n) :
    (wrapping_add_to_u32_be_bytes l off k).drop n = l.drop n := by
  unfold wrapping_add_to_u32_be_bytes
  exact drop_write_be32_of_lt l off _ n h

theorem update_headers_eq_tsoPatch (data : List Nat) (ctx : TransmitDescriptorTcpContext)
    (i : Nat) (last : Bool) (hip : ctx.tucmd_ip = true) (htcp : ctx.tucmd_tcp = true) :
    update_prototype_headers data ctx i last false = tsoPatchNoChecksum data ctx i last := by
  unfold update_prototype_headers tsoPatchNoChecksum
  rw [hip, htcp]
  rfl

theorem tsoPatch_spec (data : List Nat) (ctx : TransmitDescriptorTcpContext)
    (i : Nat) (last : Bool)
    (h1 : ctx.ip_css + 6 ≤ ctx.tu_css) (h2 : ctx.tu_css + 14 ≤ ctx.hdrlen)
    (h3 : ctx.hdrlen ≤ data.length) :
    (tsoPatchNoChecksum data ctx i last).length = data.length ∧
    (tsoPatchNoChecksum data ctx i last).drop ctx.hdrlen = data.drop ctx.hdrlen ∧
    (∀ p, p < ctx.ip_css + 2 ∨ (ctx.ip_css + 6 ≤ p ∧ p < ctx.tu_css + 4) ∨
        (ctx.tu_css + 8 ≤ p ∧ ¬ p = ctx.tu_css + 13) →
      getB (tsoPatchNoChecksum data ctx i last) p = getB data p) ∧
    read_be16 (tsoPatchNoChecksum data ctx i last) (ctx.ip_css + 2) =
      (ctx.mss + ctx.hdrlen - ctx.ip_css) % 65536 ∧
    read_be16 (tsoPatchNoChecksum data ctx i last) (ctx.ip_css + 4) =
      (read_be16 data (ctx.ip_css + 4) + i) % 65536 ∧
    read_be32 (tsoPatchNoChecksum data ctx i last) (ctx.tu_css + 4) =
      (read_be32 data (ctx.tu_css + 4) + ctx.mss * i) % 4294967296 ∧
    (last = true → getB (tsoPatchNoChecksum data ctx i last) (ctx.tu_css + 13) =
      getB data (ctx.tu_css + 13)) ∧
    (last = false → getB (tsoPatchNoChecksum data ctx i last) (ctx.tu_css + 13) &&& 9 = 0) := by
  obtain ⟨ip, ic1, ic2, tu, tc1, tc2, pay, H, mss, b1, b2, b3, b4⟩ := ctx
  dsimp only at h1 h2 h3 ⊢
  unfold tsoPatchNoChecksum
  dsimp only
  set L := (mss + H - ip) % 65536 with hL
  set w1 := write_be16 data (ip + 2) L with hw1def
  set w2 := wrapping_add_to_u16_be_bytes w1 (ip + 4) (i % 65536) with hw2def
  set w3 := wrapping_add_to_u32_be_bytes w2 (tu + 4) (mss * i % 4294967296) with hw3def
  set T := if last then w3 else setB w3 (tu + 13) (getB w3 (tu + 13) &&& 246) with hT
  have len1 : w1.length = data.length := by rw [hw1def]; exact length_write_be16 _ _ _
  have len2 : w2.length = data.length := by rw [hw2def, length_wrapping_add16, len1]
  have len3 : w3.length = data.length := by rw [hw3def, length_wrapping_add32, len2]
  have g1 : ∀ p, p < ip + 2 ∨ ip + 4 ≤ p → getB w1 p = getB data p := by
    intro p hp
    rw [hw1def]
    exact getB_write_be16_ne _ _ _ _ (by omega) (by omega)
  have g2 : ∀ p, p < ip + 4 ∨ ip + 6 ≤ p → getB w2 p = getB w1 p := by
    intro p hp
    rw [hw2def]
    exact getB_wrapping_add16_ne _ _ _ _ (by omega) (by omega)
  have g3 : ∀ p, p < tu + 4 ∨ tu + 8 ≤ p → getB w3 p = getB w2 p := by
    intro p hp
    rw [hw3def]
    exact getB_wrapping_add32_ne _ _ _ _ (by omega) (by omega) (by omega) (by omega)
  have gU : ∀ p, p < ip + 2 ∨ (ip + 6 ≤ p ∧ p < tu + 4) ∨ tu + 8 ≤ p →
      getB w3 p = getB data p := by
    intro p hp
    rw [g3 p (by omega), g2 p (by omega), g1 p (by omega)]
  have gT : ∀ p, ¬ p = tu + 13 → getB T p = getB w3 p := by
    intro p hp
    rw [hT]
    cases last
    · rw [if_neg (by decide)]
      exact getB_setB_ne _ _ _ _ hp
    · rw [if_pos rfl]
  have lenT : T.length = data.length := by
    rw [hT]
    cases last
    · rw [if_neg (by decide), length_setB]
      exact len3
    · rw [if_pos rfl]
      exact len3
  have dropT : T.drop H = w3.drop H := by
    rw [hT]
    cases last
    · rw [if_neg (by decide)]
      exact drop_setB_of_lt _ _ _ _ (by omega)
    · rw [if_pos rfl]
  have gTd : ∀ p, p < ip + 2 ∨ (ip + 6 ≤ p ∧ p < tu + 4) ∨ (tu + 8 ≤ p ∧ ¬ p = tu + 13) →
      getB T p = getB data p := by
    intro p hp
    rw [gT p (by omega)]
    exact gU p (by omega)
  have gTw1 : ∀ p, p < ip + 4 → getB T p = getB w1 p := by
    intro p hp
    rw [gT p (by omega), g3 p (by omega), g2 p (by omega)]
  have gTw2 : ∀ p, p < tu + 4 → getB T p = getB w2 p := by
    intro p hp
    rw [gT p (by omega), g3 p (by omega)]
  have gW : ∀ p, ip + 6 ≤ p → getB w2 p = getB data p := by
    intro p hp
    rw [g2 p (by omega), g1 p (by omega)]
  refine ⟨lenT, ?_, gTd, ?_, ?_, ?_, ?_, ?_⟩
  · rw [dropT, hw3def, drop_wrapping_add32_of_lt _ _ _ _ (by omega), hw2def,
      drop_wrapping_add16_of_lt _ _ _ _ (by omega), hw1def,
      drop_write_be16_of_lt _ _ _ _ (by omega)]
  · rw [read_be16_congr T w1 (ip + 2) (gTw1 _ (by omega)) (gTw1 _ (by omega)), hw1def]
    exact read_be16_write_be16 _ _ _ (by omega) (by omega)
  · rw [read_be16_congr T w2 (ip + 4) (gTw2 _ (by omega)) (gTw2 _ (by omega))]
    have e2 : read_be16 w2 (ip + 4) = (read_be16 w1 (ip + 4) + i % 65536) % 65536 := by
      rw [hw2def]
      exact read_wrapping_add16 _ _ _ (by rw [len1]; omega)
    have e3 : read_be16 w1 (ip + 4) = read_be16 data (ip + 4) :=
      read_be16_congr _ _ _ (g1 _ (by omega)) (g1 _ (by omega))
    rw [e2, e3]
    omega
  · rw [read_be32_congr T w3 (tu + 4) (gT _ (by omega)) (gT _ (by omega)) (gT _ (by omega))
      (gT _ (by omega))]
    have e4 : read_be32 w3 (tu + 4) =
        (read_be32 w2 (tu + 4) + mss * i % 4294967296) % 4294967296 := by
      rw [hw3def]
      exact read_wrapping_add32 _ _ _ (by rw [len2]; omega)
    have e5 : read_be32 w2 (tu + 4) = read_be32 data (tu + 4) :=
      read_be32_congr _ _ _ (gW _ (by omega)) (gW _ (by omega)) (gW _ (by omega))
        (gW _ (by omega))
    rw [e4, e5]
    generalize mss * i = m
    omega
  · intro hlast
    rw [hT, hlast, if_pos rfl]
    exact gU _ (by omega)
  · intro hlast
    rw [hT, hlast, if_neg (by decide), getB_setB_eq _ _ _ (by rw [len3]; omega),
      Nat.and_assoc, (by decide : (246 : Nat) &&& 9 = 0), Nat.and_zero]

theorem chunksList_getD_eq (l : List Nat) (n i : Nat) (hn : 0 < n)
    (hi : i < (chunksList l n).length) :
    (chunksList l n).getD i [] = (l.drop (n * i)).take n :=
  chunksList_getD_aux n hn l.length l i (Nat.le_refl _) hi

theorem getD_map_range {α : Type} (f : Nat → α) (n i : Nat) (hi : i < n) (d : α) :
    ((List.range n).map f).getD i d = f i := by
  rw [List.getD_eq_getElem?_getD, List.getElem?_map, List.getElem?_range hi]
  rfl

theorem finalize_tse_shape (seq : TransmitDescriptorSequence)
    (ctx : TransmitDescriptorTcpContext) (hctx : seq.tcp_context = some ctx)
    (htse : ctx.tucmd_tse = true) (hic : seq.insert_ip_checksum = false)
    (htc : seq.insert_tcp_checksum = false)
    (hH : ctx.hdrlen ≤ seq.data.length)
    (hpay : seq.data.length - ctx.hdrlen = ctx.paylen) :
    seq.finalize = Except.ok
      ((List.range (chunksList (seq.data.drop ctx.hdrlen) ctx.mss).length).map
        (fun i => update_prototype_headers
          (seq.data.take ctx.hdrlen ++ (chunksList (seq.data.drop ctx.hdrlen) ctx.mss).getD i [])
          ctx i (i = (chunksList (seq.data.drop ctx.hdrlen) ctx.mss).length - 1) false)) := by
  have hfill : ∀ p, fillChecksums seq ctx p = p := by
    intro p
    unfold fillChecksums
    rw [hic, htc]
    dsimp only
    rw [if_neg (by decide), if_neg (by decide)]
  have hmapfill : ∀ xs : List (List Nat), xs.map (fillChecksums seq ctx) = xs := by
    intro xs
    induction xs with
    | nil => rfl
    | cons a t ih => rw [List.map_cons, hfill, ih]
  have hseg : (seq.data.drop ctx.hdrlen).length = ctx.paylen := by
    rw [List.length_drop]
    exact hpay
  unfold TransmitDescriptorSequence.finalize
  rw [hctx]
  dsimp only
  rw [htse, if_pos rfl, if_pos hH, if_pos hseg, htc, hmapfill]

theorem finalize_tse_fail (seq : TransmitDescriptorSequence)
    (ctx : TransmitDescriptorTcpContext) (hctx : seq.tcp_context = some ctx)
    (htse : ctx.tucmd_tse = true) (hH : ctx.hdrlen ≤ seq.data.length)
    (hpay : ¬ seq.data.length - ctx.hdrlen = ctx.paylen) :
    seq.finalize = Except.error "Payload length doesn't match" := by
  unfold TransmitDescriptorSequence.finalize
  rw [hctx]
  dsimp only
  rw [htse, if_pos rfl, if_pos hH, if_neg]
  rw [List.length_drop]
  exact hpay

theorem drop_append_length_eq (l1 l2 : List Nat) (n : Nat) (h : l1.length = n) :
    (l1 ++ l2).drop n = l2 := by
  subst h
  exact List.drop_left l1 l2

/-- C1: With a TSE TCP context (IPv4+TCP, no checksum insertion latched,
positive MSS, sane header offsets), finalize succeeds exactly when the
accumulated payload length equals PAYLEN, and then yields
ceil(paylen/mss) packets; packet i is the hdrlen-byte header prototype
followed by the i-th mss-sized payload chunk, with the prototype header
bytes preserved outside the patched fields, the TCP sequence number at
TUCSS+4 advanced by mss*i mod 2^32, the IPv4 identification at IPCSS+4
advanced by i mod 2^16, and FIN/PSH (mask 9 of the byte at TUCSS+13)
cleared on every packet but the last. -/
theorem tso_segmentation (seq : TransmitDescriptorSequence)
    (ctx : TransmitDescriptorTcpContext)
    (hctx : seq.tcp_context = some ctx) (htse : ctx.tucmd_tse = true)
    (hip : ctx.tucmd_ip = true) (htcp : ctx.tucmd_tcp = true)
    (hic : seq.insert_ip_checksum = false) (htc : seq.insert_tcp_checksum = false)
    (hmss : 0 < ctx.mss)
    (ho1 : ctx.ip_css + 6 ≤ ctx.tu_css) (ho2 : ctx.tu_css + 14 ≤ ctx.hdrlen)
    (hH : ctx.hdrlen ≤ seq.data.length) :
    ((∃ ps, seq.finalize = Except.ok ps) ↔ seq.data.length - ctx.hdrlen = ctx.paylen) ∧
    ∀ ps, seq.finalize = Except.ok ps →
      ps.length = (ctx.paylen + ctx.mss - 1) / ctx.mss ∧
      ∀ i, i < ps.length →
        (ps.getD i []).length =
          ctx.hdrlen + (((seq.data.drop ctx.hdrlen).drop (ctx.mss * i)).take ctx.mss).length ∧
        (ps.getD i []).drop ctx.hdrlen =
          ((seq.data.drop ctx.hdrlen).drop (ctx.mss * i)).take ctx.mss ∧
        (∀ p, p < ctx.hdrlen →
          p < ctx.ip_css + 2 ∨ (ctx.ip_css + 6 ≤ p ∧ p < ctx.tu_css + 4) ∨
            (ctx.tu_css + 8 ≤ p ∧ ¬ p = ctx.tu_css + 13) →
          getB (ps.getD i []) p = getB seq.data p) ∧
        read_be32 (ps.getD i []) (ctx.tu_css + 4) =
          (read_be32 seq.data (ctx.tu_css + 4) + ctx.mss * i) % 4294967296 ∧
        read_be16 (ps.getD i []) (ctx.ip_css + 4) =
          (read_be16 seq.data (ctx.ip_css + 4) + i) % 65536 ∧
        (i + 1 < ps.length → getB (ps.getD i []) (ctx.tu_css + 13) &&& 9 = 0) := by
  constructor
  · constructor
    · rintro ⟨ps, hps⟩
      by_contra hne
      rw [finalize_tse_fail seq ctx hctx htse hH hne] at hps
      exact Except.noConfusion hps
    · intro hpay
      exact ⟨_, finalize_tse_shape seq ctx hctx htse hic htc hH hpay⟩
  · intro ps hps
    have hpay : seq.data.length - ctx.hdrlen = ctx.paylen := by
      by_contra hne
      rw [finalize_tse_fail seq ctx hctx htse hH hne] at hps
      exact Except.noConfusion hps
    rw [finalize_tse_shape seq ctx hctx htse hic htc hH hpay] at hps
    obtain rfl := Except.ok.inj hps
    have hproto : (seq.data.take ctx.hdrlen).length = ctx.hdrlen := by
      rw [List.length_take]
      omega
    constructor
    · rw [List.length_map, List.length_range, chunksList_length_eq _ _ hmss,
        List.length_drop, hpay]
    · intro i hi
      rw [List.length_map, List.length_range] at hi
      rw [getD_map_range _ _ _ hi]
      rw [chunksList_getD_eq _ _ _ hmss hi]
      rw [update_headers_eq_tsoPatch _ _ _ _ hip htcp]
      have hD3 : ctx.hdrlen ≤
          (seq.data.take ctx.hdrlen ++
            ((seq.data.drop ctx.hdrlen).drop (ctx.mss * i)).take ctx.mss).length := by
        rw [List.length_append, hproto]
        omega
      obtain ⟨s1, s2, s3, s4, s5, s6, s7, s8⟩ :=
        tsoPatch_spec
          (seq.data.take ctx.hdrlen ++
            ((seq.data.drop ctx.hdrlen).drop (ctx.mss * i)).take ctx.mss)
          ctx i
          (decide (i = (chunksList (seq.data.drop ctx.hdrlen) ctx.mss).length - 1))
          ho1 ho2 hD3
      have hDdata : ∀ p, p < ctx.hdrlen →
          getB (seq.data.take ctx.hdrlen ++
            ((seq.data.drop ctx.hdrlen).drop (ctx.mss * i)).take ctx.mss) p =
          getB seq.data p := by
        intro p hp
        rw [getB_append_lt _ _ _ (by rw [hproto]; exact hp), getB_take _ _ _ hp]
      refine ⟨?_, ?_, ?_, ?_, ?_, ?_⟩
      · rw [s1, List.length_append, hproto]
      · rw [s2, drop_append_length_eq _ _ _ hproto]
      · intro p hp1 hp2
        rw [s3 p hp2, hDdata p hp1]
      · rw [s6, read_be32_congr _ _ _ (hDdata _ (by omega)) (hDdata _ (by omega))
          (hDdata _ (by omega)) (hDdata _ (by omega))]
      · rw [s5, read_be16_congr _ _ _ (hDdata _ (by omega)) (hDdata _ (by omega))]
      · intro hlt
        rw [List.length_map, List.length_range] at hlt
        refine s8 (decide_eq_false ?_)
        omega

theorem tso_segmentation_witness :
    TransmitDescriptorSequence.finalize seqC =
      Except.ok ((TransmitDescriptorSequence.finalize seqC).toOption.getD []) ∧
    ((TransmitDescriptorSequence.finalize seqC).toOption.getD []).length =
      (ctxC.paylen + ctxC.mss - 1) / ctxC.mss ∧
    (((TransmitDescriptorSequence.finalize seqC).toOption.getD []).getD 0 []).drop ctxC.hdrlen =
      ((seqC.data.drop ctxC.hdrlen).drop (ctxC.mss * 0)).take ctxC.mss ∧
    getB (((TransmitDescriptorSequence.finalize seqC).toOption.getD []).getD 0 [])
      (ctxC.tu_css + 13) &&& 9 = 0 := by
  have h := tso_segmentation seqC ctxC rfl rfl rfl rfl rfl rfl (by decide) (by decide)
    (by decide) (by decide)
  have hok : TransmitDescriptorSequence.finalize seqC =
      Except.ok ((TransmitDescriptorSequence.finalize seqC).toOption.getD []) := by rfl
  obtain ⟨hlen, hrest⟩ := h.2 _ hok
  refine ⟨hok, hlen, (hrest 0 (by rw [hlen]; decide)).2.1, ?_⟩
  exact (hrest 0 (by rw [hlen]; decide)).2.2.2.2.2 (by rw [hlen]; decide)

theorem update_headers_ip_length (data : List Nat) (ctx : TransmitDescriptorTcpContext)
    (i : Nat) (last : Bool)
    (h1 : ctx.ip_css + 6 ≤ ctx.tu_css) (h2 : ctx.tu_css + 14 ≤ ctx.hdrlen)
    (h3 : ctx.hdrlen ≤ data.length) :
    read_be16 (update_prototype_headers data ctx i last false)
      (ctx.ip_css + if ctx.tucmd_ip then 2 else 4) =
      (ctx.mss + ctx.hdrlen - ctx.ip_css) % 65536 := by
  obtain ⟨ip, ic1, ic2, tu, tc1, tc2, pay, H, mss, b1, b2, b3, b4⟩ := ctx
  dsimp only at h1 h2 h3 ⊢
  unfold update_prototype_headers
  dsimp only
  have hL : (mss + H - ip) % 65536 < 65536 := Nat.mod_lt _ (by omega)
  have h32 : ∀ (l : List Nat) (k p : Nat), p + 1 < tu + 4 →
      read_be16 (wrapping_add_to_u32_be_bytes l (tu + 4) k) p = read_be16 l p := by
    intro l k p hp
    exact read_be16_congr _ _ _
      (getB_wrapping_add32_ne _ _ _ _ (by omega) (by omega) (by omega) (by omega))
      (getB_wrapping_add32_ne _ _ _ _ (by omega) (by omega) (by omega) (by omega))
  have hsetB13 : ∀ (l : List Nat) (v p : Nat), p + 1 < tu + 4 →
      read_be16 (setB l (tu + 13) v) p = read_be16 l p := by
    intro l v p hp
    exact read_be16_congr _ _ _ (getB_setB_ne _ _ _ _ (by omega))
      (getB_setB_ne _ _ _ _ (by omega))
  have hw16tu : ∀ (l : List Nat) (v p : Nat), p + 1 < tu + 4 →
      read_be16 (write_be16 l (tu + 4) v) p = read_be16 l p := by
    intro l v p hp
    exact read_be16_congr _ _ _ (getB_write_be16_ne _ _ _ _ (by omega) (by omega))
      (getB_write_be16_ne _ _ _ _ (by omega) (by omega))
  have hbT : read_be16 (wrapping_add_to_u16_be_bytes
      (write_be16 data (ip + 2) ((mss + H - ip) % 65536)) (ip + 4) (i % 65536)) (ip + 2) =
      (mss + H - ip) % 65536 := by
    rw [read_be16_congr _ (write_be16 data (ip + 2) ((mss + H - ip) % 65536)) (ip + 2)
      (getB_wrapping_add16_ne _ _ _ _ (by omega) (by omega))
      (getB_wrapping_add16_ne _ _ _ _ (by omega) (by omega))]
    exact read_be16_write_be16 _ _ _ (by omega) hL
  have hbF : read_be16 (write_be16 data (ip + 4) ((mss + H - ip) % 65536)) (ip + 4) =
      (mss + H - ip) % 65536 :=
    read_be16_write_be16 _ _ _ (by omega) hL
  cases b1
  · cases b2
    · show read_be16 (write_be16 _ (tu + 4) _) (ip + 4) = (mss + H - ip) % 65536
      rw [hw16tu _ _ _ (by omega)]
      exact hbF
    · cases last
      · show read_be16 (setB _ (tu + 13) _) (ip + 4) = (mss + H - ip) % 65536
        rw [hsetB13 _ _ _ (by omega), h32 _ _ _ (by omega)]
        exact hbF
      · show read_be16 (wrapping_add_to_u32_be_bytes _ (tu + 4) _) (ip + 4) =
          (mss + H - ip) % 65536
        rw [h32 _ _ _ (by omega)]
        exact hbF
  · cases b2
    · show read_be16 (write_be16 _ (tu + 4) _) (ip + 2) = (mss + H - ip) % 65536
      rw [hw16tu _ _ _ (by omega)]
      exact hbT
    · cases last
      · show read_be16 (setB _ (tu + 13) _) (ip + 2) = (mss + H - ip) % 65536
        rw [hsetB13 _ _ _ (by omega), h32 _ _ _ (by omega)]
        exact hbT
      · show read_be16 (wrapping_add_to_u32_be_bytes _ (tu + 4) _) (ip + 2) =
          (mss + H - ip) % 65536
        rw [h32 _ _ _ (by omega)]
        exact hbT

/-- C2 (amended): for every TSO segment produced by finalize — including the
last one, whose payload chunk may be shorter than MSS — the IPv4
total-length field at IPCSS+2 (IPv6 payload-length field at IPCSS+4 when
tucmd.IP is clear) is patched to (MSS + hdrlen - IPCSS) mod 2^16; the value
never shrinks for a short last segment. -/
theorem tso_ip_length_always (seq : TransmitDescriptorSequence)
    (ctx : TransmitDescriptorTcpContext)
    (hctx : seq.tcp_context = some ctx) (htse : ctx.tucmd_tse = true)
    (hic : seq.insert_ip_checksum = false) (htc : seq.insert_tcp_checksum = false)
    (ho1 : ctx.ip_css + 6 ≤ ctx.tu_css) (ho2 : ctx.tu_css + 14 ≤ ctx.hdrlen)
    (hH : ctx.hdrlen ≤ seq.data.length) :
    ∀ ps, seq.finalize = Except.ok ps → ∀ i, i < ps.length →
      read_be16 (ps.getD i []) (ctx.ip_css + if ctx.tucmd_ip then 2 else 4) =
        (ctx.mss + ctx.hdrlen - ctx.ip_css) % 65536 := by
  intro ps hps i hi
  have hpay : seq.data.length - ctx.hdrlen = ctx.paylen := by
    by_contra hne
    rw [finalize_tse_fail seq ctx hctx htse hH hne] at hps
    exact Except.noConfusion hps
  rw [finalize_tse_shape seq ctx hctx htse hic htc hH hpay] at hps
  obtain rfl := Except.ok.inj hps
  rw [List.length_map, List.length_range] at hi
  rw [getD_map_range _ _ _ hi]
  exact update_headers_ip_length _ _ _ _ ho1 ho2
    (by rw [List.length_append, List.length_take]; omega)

/-- C2 counterexample: finalizing seqC (paylen 3, mss 2, hdrlen 20,
ip_css 0) yields two segments; the last segment's payload chunk is 1 byte,
yet its IP total-length field reads mss + hdrlen - ip_css = 22, not the
claimed len(last_chunk) + hdrlen - ip_css = 21. -/
theorem tso_ip_length_last_segment_not_shorter :
    ((TransmitDescriptorSequence.finalize seqC).toOption.getD []).length = 2 ∧
    ((((TransmitDescriptorSequence.finalize seqC).toOption.getD []).getD 1 []).drop
      ctxC.hdrlen).length = 1 ∧
    read_be16 (((TransmitDescriptorSequence.finalize seqC).toOption.getD []).getD 1 [])
      (ctxC.ip_css + 2) = ctxC.mss + ctxC.hdrlen - ctxC.ip_css ∧
    ¬ read_be16 (((TransmitDescriptorSequence.finalize seqC).toOption.getD []).getD 1 [])
      (ctxC.ip_css + 2) = 1 + ctxC.hdrlen - ctxC.ip_css := by
  have hshape := finalize_tse_shape seqC ctxC rfl rfl rfl rfl (by decide) (by decide)
  have hn : (chunksList (seqC.data.drop ctxC.hdrlen) ctxC.mss).length = 2 := by
    rw [chunksList_length_eq _ _ (by decide)]
    decide
  rw [hn] at hshape
  have hck : (chunksList (seqC.data.drop ctxC.hdrlen) ctxC.mss).getD 1 [] =
      ((seqC.data.drop ctxC.hdrlen).drop (ctxC.mss * 1)).take ctxC.mss :=
    chunksList_getD_eq _ _ _ (by decide) (by rw [hn]; decide)
  have hpkt : ((TransmitDescriptorSequence.finalize seqC).toOption.getD []).getD 1 [] =
      update_prototype_headers
        (seqC.data.take ctxC.hdrlen ++
          ((seqC.data.drop ctxC.hdrlen).drop (ctxC.mss * 1)).take ctxC.mss)
        ctxC 1 (1 = 2 - 1) false := by
    rw [hshape]
    dsimp only [Except.toOption, Option.getD]
    rw [getD_map_range _ _ _ (by decide), hck]
  have hlen2 : ((TransmitDescriptorSequence.finalize seqC).toOption.getD []).length = 2 := by
    rw [hshape]
    dsimp only [Except.toOption, Option.getD]
    rw [List.length_map, List.length_range]
  refine ⟨hlen2, ?_, ?_, ?_⟩
  · rw [hpkt]
    decide
  · rw [hpkt]
    decide
  · rw [hpkt]
    decide

theorem tso_ip_length_always_witness :
    read_be16 (((TransmitDescriptorSequence.finalize seqC).toOption.getD []).getD 1 [])
      (ctxC.ip_css + if ctxC.tucmd_ip then 2 else 4) =
      (ctxC.mss + ctxC.hdrlen - ctxC.ip_css) % 65536 := by
  have hlen : ((TransmitDescriptorSequence.finalize seqC).toOption.getD []).length = 2 := by
    rw [finalize_tse_shape seqC ctxC rfl rfl rfl rfl (by decide) (by decide)]
    dsimp only [Except.toOption, Option.getD]
    rw [List.length_map, List.length_range, chunksList_length_eq _ _ (by decide)]
    decide
  exact tso_ip_length_always seqC ctxC rfl rfl rfl rfl (by decide) (by decide) (by decide)
    ((TransmitDescriptorSequence.finalize seqC).toOption.getD []) (by rfl) 1
    (by rw [hlen]; decide)

end E1000
